import Mathlib

/-!
# btrfs-backup: a shallow embedding of `btrfs-backup.cpp`

The program is a straight-line sequence of calls into libbtrfsutil, the C++
`std::filesystem` library and `system(3)`.  The embedding keeps the program
text (`to_string`, `to_DOW`, `DOWSTR`, `delete_subvolume_if_exists`,
`create_readonly_snapshot`, `perform_incremental_backup`,
`perform_full_backup`, `must_be_a_subvolume`, `main`) and models the library
calls as functions on an explicit file-system state.

Modelling decisions for the library side:

* a file system is a map from paths to nodes; a path is its list of
  components, `p / "x"` appends one component (the literal
  `".snapshots/head"` of the source is the two components `.snapshots`,
  `head`);
* every library call acts on the entry it names only (the slots used by the
  program are leaf entries of the two roots);
* whatever is decided outside the program (whether a snapshot can be
  created, the identity and creation time of a new subvolume, the wait status
  of the shell pipeline, the time zone, the moment the process is killed) is
  read from an environment record `Env`;
* the send/receive pipeline fails with exit status 1 when it cannot work at all
  (nothing read-only to send, or the name already taken in the destination);
  when it succeeds the destination holds a read-only subvolume named after the
  sent snapshot whose received uuid is the uuid of the sent snapshot; when it
  fails it may leave a partial subvolume;
* a rename moves the node with all its attributes;
* C++ exceptions are explicit error results; the state at the moment of the
  throw is kept, nothing is rolled back;
* every external call is recorded in a log, so that statements can speak about
  which calls a run made and in which order.
-/

namespace BtrfsBackup

/-! ## Data model -/

/-- The `uint8_t uuid[16]` arrays of `struct btrfs_util_subvolume_info`. -/
abbrev UUID := Fin 16 → Fin 256

/-- A path, as the list of its components. -/
abbrev Path := List String

instance : HDiv Path String Path := ⟨fun p s => p ++ [s]⟩

/-- The fields of `struct btrfs_util_subvolume_info` the program reads, plus
what the library calls depend on. -/
structure Subvol where
  id : Nat
  uuid : UUID
  received_uuid : UUID
  otime : Int
  readonly : Bool
  busy : Bool
deriving DecidableEq

/-- What a path names. -/
inductive Node where
  | absent
  | file
  | dir
  | subvol (s : Subvol)
deriving DecidableEq

abbrev FS := Path → Node

/-- The external calls that change (or flush) the file system, in the order
the program issues them. -/
inductive Op where
  | delete_subvolume (p : Path)
  | create_snapshot (src snapshot : Path)
  | sync
  | system (parent : Option Path) (snapshot dst : Path)
  | rename (old new : Path)
  | create_directory (p : Path)
deriving DecidableEq

/-- The `std::runtime_error`s the program throws or lets through, and the
termination of the process from outside. -/
inductive Err where
  | inspect_failed (p : Path)
  | cannot_be_deleted (p : Path)
  | snapshot_failed (p : Path)
  | btrfs_command
  | not_a_subvolume (p : Path)
  | filesystem_error (p : Path)
  | killed
deriving DecidableEq

/-- Identity and creation time of a subvolume made during the run. -/
structure Fresh where
  id : Nat
  uuid : UUID
  otime : Int
deriving DecidableEq

/-- Everything a run reads from outside the program. -/
structure Env where
  tz : Int
  snap_ok : Bool
  snap : Fresh
  rst : Int
  recv_partial : Bool
  recv : Fresh
  kill_after : Option Nat

structure World where
  fs : FS
  log : List Op

inductive Res (α : Type) where
  | ok (a : α) (w : World)
  | fail (e : Err) (w : World)

/-- Computations of the program: they read the environment, thread the world
and may throw. -/
def M (α : Type) : Type := Env → World → Res α

def M.pure {α : Type} (a : α) : M α := fun _ w => Res.ok a w

def M.bind {α β : Type} (x : M α) (f : α → M β) : M β := fun env w =>
  match x env w with
  | Res.ok a w1 => f a env w1
  | Res.fail e w1 => Res.fail e w1

instance : Monad M where
  pure := M.pure
  bind := M.bind

def throw_error {α : Type} (e : Err) : M α := fun _ w => Res.fail e w

def get_fs : M FS := fun _ w => Res.ok w.fs w

def get_env : M Env := fun env w => Res.ok env w

/-- The process is terminated from outside once `kill_after` external calls
have been issued. -/
def is_killed (env : Env) (calls : Nat) : Bool :=
  match env.kill_after with
  | some k => decide (k ≤ calls)
  | none => false

/-- One external call: it is recorded, and it either changes the file system
and returns, or fails and leaves the file system as it was. -/
def effect {α : Type} (op : Op) (f : Env → FS → Except Err (α × FS)) : M α := fun env w =>
  if is_killed env w.log.length then Res.fail Err.killed w
  else match f env w.fs with
    | Except.ok (a, fs1) => Res.ok a ⟨fs1, w.log ++ [op]⟩
    | Except.error e => Res.fail e ⟨w.fs, w.log ++ [op]⟩

/-- The file system with the entry at `p` replaced. -/
def FS.set (fs : FS) (p : Path) (n : Node) : FS := fun q => if q = p then n else fs q

def Node.is_dir : Node → Bool
  | Node.dir => true
  | Node.subvol _ => true
  | _ => false

def parent_path (p : Path) : Path := p.dropLast

def filename (p : Path) : String := p.getLastD ""

/-! ## Library calls -/

/-- Models `btrfs_util_is_subvolume(path) == BTRFS_UTIL_OK`. -/
def btrfs_util_is_subvolume (fs : FS) (p : Path) : Bool :=
  match fs p with
  | Node.subvol _ => true
  | _ => false

/-- Models `btrfs_util_subvolume_info(path, 0, &subvol)`: the information, or
nothing when the call does not return `BTRFS_UTIL_OK`. -/
def btrfs_util_subvolume_info (fs : FS) (p : Path) : Option Subvol :=
  match fs p with
  | Node.subvol s => some s
  | _ => none

/-- Models `std::filesystem::exists`. -/
def exists_path (fs : FS) (p : Path) : Bool :=
  match fs p with
  | Node.absent => false
  | _ => true

/-- Models `btrfs_util_delete_subvolume(path, RECURSIVE)`: removes a subvolume that is
not in use; in every other case it fails and changes nothing. -/
def btrfs_util_delete_subvolume (fs : FS) (p : Path) : Option FS :=
  match fs p with
  | Node.subvol s => if s.busy then none else some (fs.set p Node.absent)
  | _ => none

/-- The subvolume a read-only snapshot creates: a new identity, not received
from anywhere. -/
def snapshot_subvol (env : Env) : Subvol :=
  { id := env.snap.id, uuid := env.snap.uuid, received_uuid := fun _ => 0,
    otime := env.snap.otime, readonly := true, busy := false }

/-- Models `btrfs_util_create_snapshot(src, snapshot, READ_ONLY, NULL, NULL)`: needs a
subvolume at `src`, a directory to hold the new entry and a free name. -/
def btrfs_util_create_snapshot (env : Env) (fs : FS) (src snapshot : Path) : Option FS :=
  if btrfs_util_is_subvolume fs src && (fs (parent_path snapshot)).is_dir
      && !exists_path fs snapshot && env.snap_ok then
    some (fs.set snapshot (Node.subvol (snapshot_subvol env)))
  else none

/-- Models `WIFEXITED` of `<sys/wait.h>`: the low seven bits of the status are zero. -/
def WIFEXITED (rst : Int) : Bool := decide (rst % 128 = 0)

/-- Models `WEXITSTATUS` of `<sys/wait.h>`: bits 8 to 15 of the status. -/
def WEXITSTATUS (rst : Int) : Int := (rst / 256) % 256

def is_readonly_subvolume (fs : FS) (p : Path) : Bool :=
  match fs p with
  | Node.subvol s => s.readonly
  | _ => false

/-- Whether `btrfs send [-p parent] snapshot | btrfs receive dst` can work at
all: read-only subvolumes to send from, a directory to receive into, and no
entry with the name of the snapshot there yet. -/
def transfer_possible (fs : FS) (parent : Option Path) (snapshot dst : Path) : Bool :=
  is_readonly_subvolume fs snapshot
    && (match parent with
        | some p => is_readonly_subvolume fs p
        | none => true)
    && (fs dst).is_dir
    && !exists_path fs (dst / filename snapshot)

/-- The subvolume `btrfs receive` leaves in the destination: complete (read-only,
with the sent snapshot's uuid as received uuid) or, after a failure, a partial
one. -/
def received_subvol (env : Env) (sent : UUID) (complete : Bool) : Subvol :=
  { id := env.recv.id, uuid := env.recv.uuid,
    received_uuid := if complete then sent else fun _ => 0,
    otime := env.recv.otime, readonly := complete, busy := false }

/-- Models `system("btrfs send [-p parent] snapshot | btrfs receive dst")`: the wait
status and the file system afterwards. -/
def system (env : Env) (fs : FS) (parent : Option Path) (snapshot dst : Path) : Int × FS :=
  match fs snapshot with
  | Node.subvol s =>
    if transfer_possible fs parent snapshot dst then
      if WIFEXITED env.rst && WEXITSTATUS env.rst == 0 then
        (env.rst, fs.set (dst / filename snapshot) (Node.subvol (received_subvol env s.uuid true)))
      else if env.recv_partial then
        (env.rst, fs.set (dst / filename snapshot) (Node.subvol (received_subvol env s.uuid false)))
      else (env.rst, fs)
    else (256, fs)
  | _ => (256, fs)

/-- Models `std::filesystem::rename(old, new)` onto a free name; it throws
`filesystem_error` when `old` does not exist or `new` is taken. -/
def fs_rename (fs : FS) (old new : Path) : Option FS :=
  if exists_path fs old && !exists_path fs new then
    some ((fs.set new (fs old)).set old Node.absent)
  else none

/-- Models `std::filesystem::create_directory(p)`: nothing to do for an existing
directory, an error for any other existing entry or a missing parent. -/
def fs_create_directory (fs : FS) (p : Path) : Option FS :=
  match fs p with
  | Node.absent => if (fs (parent_path p)).is_dir then some (fs.set p Node.dir) else none
  | Node.file => none
  | _ => some fs

/-- Models `localtime(&t)->tm_wday` in a time zone `tz` seconds east of UTC
(1 January 1970 was a Thursday). -/
def localtime_wday (tz : Int) (t : Int) : Nat := (((t + tz) / 86400 + 4) % 7).toNat

/-! ## The program -/

/-- The two characters `%02x` prints for a byte. -/
def hex_digit (n : Nat) : Char :=
  if n < 10 then Char.ofNat (48 + n) else Char.ofNat (87 + n)

def fmt_02x (b : Fin 256) : List Char := [hex_digit (b.val / 16), hex_digit (b.val % 16)]

/-- Embeds `std::string to_string(uint8_t uuid[16])`. -/
def to_string (uuid : UUID) : String :=
  String.mk (fmt_02x (uuid 0) ++ fmt_02x (uuid 1) ++ fmt_02x (uuid 2) ++ fmt_02x (uuid 3)
    ++ '-' :: (fmt_02x (uuid 4) ++ fmt_02x (uuid 5))
    ++ '-' :: (fmt_02x (uuid 6) ++ fmt_02x (uuid 7))
    ++ '-' :: (fmt_02x (uuid 8) ++ fmt_02x (uuid 9))
    ++ '-' :: (fmt_02x (uuid 10) ++ fmt_02x (uuid 11) ++ fmt_02x (uuid 12)
    ++ fmt_02x (uuid 13) ++ fmt_02x (uuid 14) ++ fmt_02x (uuid 15)))

/-- Embeds `int to_DOW(const std::filesystem::path& subvol_path)`. -/
def to_DOW (subvol_path : Path) : M Nat := do
  let fs ← get_fs
  match btrfs_util_subvolume_info fs subvol_path with
  | none => throw_error (Err.inspect_failed subvol_path)
  | some subvol =>
    let env ← get_env
    return localtime_wday env.tz subvol.otime

/-- Embeds `static const char* DOWSTR[]`. -/
def DOWSTR : List String := ["Sun", "Mon", "Tue", "Wed", "Thu", "Fri", "Sat"]

/-- Embeds `void delete_subvolume_if_exists(const std::filesystem::path& subvol)`: the
result of the delete call is not looked at, only whether the path still
exists. -/
def delete_subvolume_if_exists (subvol : Path) : M Unit := do
  effect (Op.delete_subvolume subvol)
    (fun _ fs => Except.ok ((), (btrfs_util_delete_subvolume fs subvol).getD fs))
  let fs ← get_fs
  if exists_path fs subvol then
    throw_error (Err.cannot_be_deleted subvol)

/-- Embeds `void create_readonly_snapshot(src, snapshot)`. -/
def create_readonly_snapshot (src snapshot : Path) : M Unit :=
  effect (Op.create_snapshot src snapshot) (fun env fs =>
    match btrfs_util_create_snapshot env fs src snapshot with
    | some fs1 => Except.ok ((), fs1)
    | none => Except.error (Err.snapshot_failed snapshot))

/-- Embeds `sync()`. -/
def sync : M Unit := effect Op.sync (fun _ fs => Except.ok ((), fs))

/-- Embeds `std::filesystem::rename(old, new)`, which throws on failure. -/
def rename (old new : Path) : M Unit :=
  effect (Op.rename old new) (fun _ fs =>
    match fs_rename fs old new with
    | some fs1 => Except.ok ((), fs1)
    | none => Except.error (Err.filesystem_error old))

/-- Embeds `std::filesystem::create_directory(p)`, which throws on failure. -/
def create_directory (p : Path) : M Unit :=
  effect (Op.create_directory p) (fun _ fs =>
    match fs_create_directory fs p with
    | some fs1 => Except.ok ((), fs1)
    | none => Except.error (Err.filesystem_error p))

/-- Embeds `system(cmd.c_str())` for the send/receive pipeline. -/
def system_call (parent : Option Path) (snapshot dst : Path) : M Int :=
  effect (Op.system parent snapshot dst) (fun env fs =>
    Except.ok (system env fs parent snapshot dst))

/-- Embeds `void perform_incremental_backup(src, dst)`. -/
def perform_incremental_backup (src dst : Path) : M Unit := do
  let dst_head := dst / "head"
  let dst_head_new := dst / "head.new"
  delete_subvolume_if_exists dst_head_new
  let src_head := src / ".snapshots" / "head"
  let src_head_new := src / ".snapshots" / "head.new"
  delete_subvolume_if_exists src_head_new
  create_readonly_snapshot src src_head_new
  sync
  let rst ← system_call (some src_head) src_head_new dst
  if !WIFEXITED rst || WEXITSTATUS rst != 0 then
    throw_error Err.btrfs_command
  let dow := DOWSTR.getD (← to_DOW src_head) ""
  let src_dow := src / ".snapshots" / dow
  let dst_dow := dst / dow
  delete_subvolume_if_exists src_dow
  delete_subvolume_if_exists dst_dow
  sync
  rename src_head src_dow
  rename dst_head dst_dow
  rename src_head_new src_head
  rename dst_head_new dst_head

/-- Embeds `void perform_full_backup(src, dst)`. -/
def perform_full_backup (src dst : Path) : M Unit := do
  let src_head := src / ".snapshots" / "head"
  if btrfs_util_is_subvolume (← get_fs) src_head then
    let src_dow := src / ".snapshots" / DOWSTR.getD (← to_DOW src_head) ""
    delete_subvolume_if_exists src_dow
    rename src_head src_dow
  let dst_head := dst / "head"
  if btrfs_util_is_subvolume (← get_fs) dst_head then
    let dst_dow := dst / DOWSTR.getD (← to_DOW dst_head) ""
    delete_subvolume_if_exists dst_dow
    rename dst_head dst_dow
  sync
  create_directory (src / ".snapshots")
  create_readonly_snapshot src src_head
  sync
  let rst ← system_call none src_head dst
  if !WIFEXITED rst || WEXITSTATUS rst != 0 then
    throw_error Err.btrfs_command

/-- Embeds `void must_be_a_subvolume(path)`. -/
def must_be_a_subvolume (path : Path) : M Unit := do
  if !btrfs_util_is_subvolume (← get_fs) path then
    throw_error (Err.not_a_subvolume path)

/-- The mode selection of `main` (lines 132 to 140): the value of
`incremental_backup_possible` when the `if` is reached. -/
def incremental_backup_possible (fs : FS) (src dst : Path) : Bool :=
  match btrfs_util_subvolume_info fs (src / ".snapshots" / "head") with
  | some subvol =>
    let src_uuid := to_string subvol.uuid
    match btrfs_util_subvolume_info fs (dst / "head") with
    | some subvol =>
      let received_uuid := to_string subvol.received_uuid
      src_uuid == received_uuid
    | none => false
  | none => false

/-- The `try` block of `main`. -/
def try_block (src dst : Path) : M Unit := do
  must_be_a_subvolume src
  must_be_a_subvolume dst
  if incremental_backup_possible (← get_fs) src dst then
    perform_incremental_backup src dst
  else
    perform_full_backup src dst

/-- How the process ends: `main` returns a code, or the process is killed. -/
inductive Exit where
  | returned (code : Int)
  | killed
deriving DecidableEq

/-- The `catch` clause and the `return` statements that end `main`: 0 after the
`try` block, 1 after a `std::runtime_error`; a killed process returns
nothing. -/
def catch_runtime_error (r : Res Unit) : Exit × World :=
  match r with
  | Res.ok _ w => (Exit.returned 0, w)
  | Res.fail Err.killed w => (Exit.killed, w)
  | Res.fail _ w => (Exit.returned 1, w)

/-- Embeds `int main(int argc, char* argv[])`; `args` is `argv[1..]`.  The result
is the exit, the file system afterwards and the external calls made. -/
def main (args : List Path) (env : Env) (fs : FS) : Exit × World :=
  match args with
  | [src, dst] => catch_runtime_error (try_block src dst env ⟨fs, []⟩)
  | _ => (Exit.returned (-1), ⟨fs, []⟩)

/-! ## Notions used in the statements and proofs -/

/-- What `delete_subvolume_if_exists` gets out of the way: nothing at all, or a
subvolume that is not in use. -/
def Node.deletable : Node → Bool
  | Node.absent => true
  | Node.subvol s => !s.busy
  | _ => false

/-- The file system after a successful incremental run that found `fs` and
retired the heads into the slots named `dow`. -/
def incremental_result (env : Env) (fs : FS) (src dst : Path) (dow : String) : FS := fun p =>
  if p = src / ".snapshots" / "head" then Node.subvol (snapshot_subvol env)
  else if p = dst / "head" then Node.subvol (received_subvol env env.snap.uuid true)
  else if p = src / ".snapshots" / dow then fs (src / ".snapshots" / "head")
  else if p = dst / dow then fs (dst / "head")
  else if p = src / ".snapshots" / "head.new" then Node.absent
  else if p = dst / "head.new" then Node.absent
  else fs p

/-- The external calls of a complete incremental run. -/
def incremental_ops (src dst : Path) (dow : String) : List Op :=
  [Op.delete_subvolume (dst / "head.new"),
   Op.delete_subvolume (src / ".snapshots" / "head.new"),
   Op.create_snapshot src (src / ".snapshots" / "head.new"),
   Op.sync,
   Op.system (some (src / ".snapshots" / "head")) (src / ".snapshots" / "head.new") dst,
   Op.delete_subvolume (src / ".snapshots" / dow),
   Op.delete_subvolume (dst / dow),
   Op.sync,
   Op.rename (src / ".snapshots" / "head") (src / ".snapshots" / dow),
   Op.rename (dst / "head") (dst / dow),
   Op.rename (src / ".snapshots" / "head.new") (src / ".snapshots" / "head"),
   Op.rename (dst / "head.new") (dst / "head")]

/-- The name of the weekday slot a head is retired into. -/
def slot_name (env : Env) (s : Subvol) : String :=
  DOWSTR.getD (localtime_wday env.tz s.otime) ""

/-- Lines 83 to 88 and 90 to 95 of `perform_full_backup`: a head that is a
subvolume is moved into the weekday slot of its own creation time. -/
def retire_head (dir : Path) : M Unit := do
  let head := dir / "head"
  if btrfs_util_is_subvolume (← get_fs) head then
    let dow := dir / DOWSTR.getD (← to_DOW head) ""
    delete_subvolume_if_exists dow
    rename head dow

/-- Lines 96 to 106 of `perform_full_backup`. -/
def full_transfer (src dst : Path) : M Unit := do
  let src_head := src / ".snapshots" / "head"
  sync
  create_directory (src / ".snapshots")
  create_readonly_snapshot src src_head
  sync
  let rst ← system_call none src_head dst
  if !WIFEXITED rst || WEXITSTATUS rst != 0 then
    throw_error Err.btrfs_command

/-- The slot a head found in `dir` is retired into by a full run, if there is a
head. -/
def retired_slot (env : Env) (fs : FS) (dir : Path) : Option Path :=
  match fs (dir / "head") with
  | Node.subvol s => some (dir / slot_name env s)
  | _ => none

/-- The external calls that retire the head found in `dir`. -/
def retire_ops (env : Env) (fs : FS) (dir : Path) : List Op :=
  match fs (dir / "head") with
  | Node.subvol s =>
    [Op.delete_subvolume (dir / slot_name env s), Op.rename (dir / "head") (dir / slot_name env s)]
  | _ => []

/-- The file system after a successful full run that found `fs`. -/
def full_result (env : Env) (fs : FS) (src dst : Path) : FS := fun p =>
  if p = src / ".snapshots" / "head" then Node.subvol (snapshot_subvol env)
  else if p = dst / "head" then Node.subvol (received_subvol env env.snap.uuid true)
  else if retired_slot env fs (src / ".snapshots") = some p then fs (src / ".snapshots" / "head")
  else if retired_slot env fs dst = some p then fs (dst / "head")
  else if p = src / ".snapshots" then (if fs p = Node.absent then Node.dir else fs p)
  else fs p

/-- Partial correctness with an exceptional postcondition: started in a world
satisfying `P`, the computation ends normally in a world satisfying `Q`, or with
an error in a world satisfying `E`. -/
def triple {α : Type} (env : Env) (P : World → Prop) (x : M α) (Q : α → World → Prop)
    (E : Err → World → Prop) : Prop :=
  ∀ w, P w → match x env w with
    | Res.ok a w1 => Q a w1
    | Res.fail e w1 => E e w1

/-- The file system after the first `n` runs of a series, run `k` reading the
environment `envs k`. -/
def fs_after (args : List Path) (envs : Nat → Env) (fs : FS) : Nat → FS
  | 0 => fs
  | n + 1 => (main args (envs n) (fs_after args envs fs n)).2.fs

/-- The exit of run `n` of a series. -/
def exit_of_run (args : List Path) (envs : Nat → Env) (fs : FS) (n : Nat) : Exit :=
  (main args (envs n) (fs_after args envs fs n)).1

/-- What a complete incremental run needs of the file system it starts from
and of its environment. -/
def incremental_ready (env : Env) (fs : FS) (src dst : Path) (s : Subvol) : Prop :=
  fs (src / ".snapshots" / "head") = Node.subvol s ∧ s.readonly = true ∧
  (fs (dst / "head.new")).deletable = true ∧
  (fs (src / ".snapshots" / "head.new")).deletable = true ∧
  btrfs_util_is_subvolume fs src = true ∧ src ≠ dst / "head.new" ∧
  (fs (src / ".snapshots")).is_dir = true ∧
  (dst = src / ".snapshots" / "head.new" ∨ (fs dst).is_dir = true) ∧
  dst ≠ src / ".snapshots" ∧
  fs (dst / "head") ≠ Node.absent ∧
  (fs (src / ".snapshots" / slot_name env s)).deletable = true ∧
  (fs (dst / slot_name env s)).deletable = true ∧
  env.snap_ok = true ∧ (WIFEXITED env.rst && WEXITSTATUS env.rst == 0) = true

/-- The file system after the head found in `dir` (if any) has been retired. -/
def retire_result (env : Env) (fs : FS) (dir : Path) : FS :=
  match fs (dir / "head") with
  | Node.subvol s => (fs.set (dir / slot_name env s) (Node.subvol s)).set (dir / "head") Node.absent
  | _ => fs

/-- The file system once `std::filesystem::create_directory(p)` has returned. -/
def with_directory (fs : FS) (p : Path) : FS := fun q =>
  if q = p then (if fs p = Node.absent then Node.dir else fs p) else fs q

/-- The external calls of a complete full run that found `fs`. -/
def full_ops (env : Env) (fs : FS) (src dst : Path) : List Op :=
  retire_ops env fs (src / ".snapshots") ++ retire_ops env fs dst ++
    [Op.sync, Op.create_directory (src / ".snapshots"),
     Op.create_snapshot src (src / ".snapshots" / "head"), Op.sync,
     Op.system none (src / ".snapshots" / "head") dst]

/-! ## Concrete inputs -/

/-- A source root of the examples. -/
def ex_src : Path := ["mnt", "data"]

/-- A destination root of the examples. -/
def ex_dst : Path := ["mnt", "backup"]

/-- A 16-byte identifier whose bytes are all `b`. -/
def ex_uuid (b : Fin 256) : UUID := fun _ => b

/-- A writable subvolume that was not received from anywhere. -/
def ex_root (id : Nat) (b : Fin 256) : Subvol :=
  { id := id, uuid := ex_uuid b, received_uuid := ex_uuid 0, otime := 0, readonly := false,
    busy := false }

/-- A valid pair of roots with no snapshot on either side. -/
def ex_fresh : FS := fun p =>
  if p = ex_src then Node.subvol (ex_root 1 1)
  else if p = ex_dst then Node.subvol (ex_root 2 2)
  else Node.absent

/-- The environment of day `k` (day 0 is a Thursday, UTC) in which every
external operation succeeds. -/
def ex_env (k : Nat) : Env :=
  { tz := 0, snap_ok := true,
    snap := { id := 10 + k, uuid := ex_uuid (Fin.ofNat (10 + k)), otime := 86400 * k + 3600 },
    rst := 0, recv_partial := false,
    recv := { id := 100 + k, uuid := ex_uuid (Fin.ofNat (100 + k)), otime := 86400 * k + 3700 },
    kill_after := none }

/-- The file system after a first, full, run on day 0. -/
def ex_after_full : FS := (main [ex_src, ex_dst] (ex_env 0) ex_fresh).2.fs

/-- The file system `g` agrees with `fs` outside the paths in `S`. -/
def unchanged_except (S : List Path) (fs g : FS) : Prop := ∀ p, p ∉ S → g p = fs p

/-- The world a computation ends in. -/
def Res.world {α : Type} : Res α → World
  | Res.ok _ w => w
  | Res.fail _ w => w

/-- The environment of day 1 in which the transfer pipeline ends with exit
status 1 and leaves a partial subvolume behind. -/
def ex_env_failing : Env :=
  { ex_env 1 with rst := 256, recv_partial := true }

/-- The environment of day 1 in which the process is killed after ten external
calls: both heads have been renamed into their weekday slot, `head.new` has not
been renamed yet. -/
def ex_env_killed : Env :=
  { ex_env 1 with kill_after := some 10 }

/-- The file system an incremental run leaves when it is killed between the
renames of `head` and the renames of `head.new`. -/
def ex_interrupted : FS := (main [ex_src, ex_dst] ex_env_killed ex_after_full).2.fs

/-- What an incremental run that is terminated before its first rename can
leave behind, relative to the file system `fs` it started from: only the two
`head.new` and the two slots named `dow` may differ, and each of them holds
what it held in `fs` or something `delete_subvolume_if_exists` removes. -/
def crash_state (fs : FS) (src dst : Path) (dow : String) (g : FS) : Prop :=
  ∀ p, g p = fs p ∨
    ((p = dst / "head.new" ∨ p = src / ".snapshots" / "head.new" ∨
      p = src / ".snapshots" / dow ∨ p = dst / dow) ∧ (g p).deletable = true)

/-- Some rename has been issued. -/
def renamed (log : List Op) : Prop := ∃ a b, Op.rename a b ∈ log

/-- The environment of day 1 in which the process is killed after six external
calls: the transfer is done and the weekday slot of the source has been
cleared, no rename has been issued. -/
def ex_env_crash : Env :=
  { ex_env 1 with kill_after := some 6 }

/-! ## Paths and file-system updates -/

theorem path_div_inj (a b : Path) (x y : String) : a / x = b / y ↔ a = b ∧ x = y := by
  show a ++ [x] = b ++ [y] ↔ _
  constructor
  · intro h
    have := List.append_inj' h rfl
    simpa using this
  · rintro ⟨rfl, rfl⟩; rfl

theorem path_div_ne_self (a : Path) (x : String) : a / x ≠ a := by
  show a ++ [x] ≠ a
  intro h
  have := congrArg List.length h
  simp at this

theorem path_div_div_ne_self (a : Path) (x y : String) : a / x / y ≠ a := by
  show a ++ [x] ++ [y] ≠ a
  intro h
  have := congrArg List.length h
  simp at this

theorem filename_div (p : Path) (x : String) : filename (p / x) = x := by
  show List.getLastD (p ++ [x]) "" = x
  simp

theorem parent_path_div (p : Path) (x : String) : parent_path (p / x) = p := by
  show List.dropLast (p ++ [x]) = p
  simp

theorem FS.set_apply (fs : FS) (p q : Path) (n : Node) :
    fs.set p n q = if q = p then n else fs q := rfl

theorem FS.set_absent_of_absent (fs : FS) (p : Path) (h : fs p = Node.absent) :
    fs.set p Node.absent = fs := by
  funext q
  by_cases hq : q = p
  · subst hq; simp [FS.set_apply, h]
  · simp [FS.set_apply, hq]

theorem exists_path_eq_false (fs : FS) (p : Path) :
    exists_path fs p = false ↔ fs p = Node.absent := by
  unfold exists_path; cases fs p <;> simp

theorem exists_path_eq_true (fs : FS) (p : Path) :
    exists_path fs p = true ↔ fs p ≠ Node.absent := by
  unfold exists_path; cases fs p <;> simp

theorem is_subvolume_iff (fs : FS) (p : Path) :
    btrfs_util_is_subvolume fs p = true ↔ ∃ s, fs p = Node.subvol s := by
  unfold btrfs_util_is_subvolume; cases fs p <;> simp

theorem DOWSTR_getD_ne (i : Nat) :
    DOWSTR.getD i "" ≠ "head" ∧ DOWSTR.getD i "" ≠ "head.new" ∧ DOWSTR.getD i "" ≠ ".snapshots" := by
  rcases i with _|_|_|_|_|_|_|i <;> simp [DOWSTR]

theorem DOWSTR_getD_inj (i j : Nat) (hi : i < 7) (hj : j < 7)
    (h : DOWSTR.getD i "" = DOWSTR.getD j "") : i = j := by
  rcases i with _|_|_|_|_|_|_|i <;> rcases j with _|_|_|_|_|_|_|j <;>
    first | rfl | omega | (simp [DOWSTR] at h)

theorem localtime_wday_lt (tz t : Int) : localtime_wday tz t < 7 := by
  unfold localtime_wday
  omega

/-! ## The monad -/

theorem bind_apply {α β : Type} (x : M α) (f : α → M β) (env : Env) (w : World) :
    (x >>= f) env w = match x env w with
      | Res.ok a w1 => f a env w1
      | Res.fail e w1 => Res.fail e w1 := rfl

theorem pure_apply {α : Type} (a : α) (env : Env) (w : World) :
    (pure a : M α) env w = Res.ok a w := rfl

theorem throw_bind {α β : Type} (e : Err) (f : α → M β) :
    (throw_error e >>= f) = throw_error e := rfl

theorem pure_bind_M {α β : Type} (a : α) (f : α → M β) : (pure a >>= f) = f a := rfl

theorem bind_ok_iff {α β : Type} (x : M α) (f : α → M β) (env : Env) (w w2 : World) (b : β) :
    (x >>= f) env w = Res.ok b w2 ↔ ∃ a w1, x env w = Res.ok a w1 ∧ f a env w1 = Res.ok b w2 := by
  rw [bind_apply]
  cases h : x env w with
  | ok a w1 =>
    constructor
    · intro h2; exact ⟨a, w1, rfl, h2⟩
    · rintro ⟨a2, w3, h3, h4⟩
      cases h3; exact h4
  | fail e w1 => simp

theorem ite_ok_iff {α : Type} (c : Prop) [Decidable c] (a b : M α) (env : Env) (w w1 : World)
    (r : α) :
    (if c then a else b) env w = Res.ok r w1 ↔
      (c ∧ a env w = Res.ok r w1) ∨ (¬c ∧ b env w = Res.ok r w1) := by
  by_cases h : c <;> simp [h]

theorem throw_ok_iff {α : Type} (e : Err) (env : Env) (w w1 : World) (r : α) :
    (throw_error e : M α) env w = Res.ok r w1 ↔ False := by
  simp [throw_error]

theorem pure_ok_iff {α : Type} (a : α) (env : Env) (w w1 : World) (r : α) :
    (pure a : M α) env w = Res.ok r w1 ↔ a = r ∧ w = w1 := by
  simp [pure_apply]

theorem get_fs_ok_iff (env : Env) (w w1 : World) (r : FS) :
    get_fs env w = Res.ok r w1 ↔ r = w.fs ∧ w1 = w := by
  simp only [get_fs, Res.ok.injEq]
  constructor <;> (intro h; exact ⟨h.1.symm, h.2.symm⟩)

theorem is_killed_mono (env : Env) (m n : Nat) (hmn : m ≤ n) (h : is_killed env n = false) :
    is_killed env m = false := by
  unfold is_killed at *
  cases hk : env.kill_after with
  | none => rfl
  | some k =>
    simp only [hk, decide_eq_false_iff_not] at h ⊢
    omega

theorem is_killed_none (env : Env) (n : Nat) (h : env.kill_after = none) :
    is_killed env n = false := by
  simp [is_killed, h]

/-! ## The library calls, when they return -/

theorem delete_ok_iff (p : Path) (env : Env) (w w1 : World) (u : Unit) :
    delete_subvolume_if_exists p env w = Res.ok u w1 ↔
      is_killed env w.log.length = false ∧ (w.fs p).deletable = true ∧
      w1 = ⟨w.fs.set p Node.absent, w.log ++ [Op.delete_subvolume p]⟩ := by
  unfold delete_subvolume_if_exists
  simp only [bind_apply, effect, get_fs]
  by_cases hk : is_killed env w.log.length = true
  · simp [hk]
  · simp only [hk]
    cases hn : w.fs p with
    | absent =>
      simp [btrfs_util_delete_subvolume, hn, exists_path, pure_apply, FS.set_absent_of_absent,
        Node.deletable]
      exact eq_comm
    | file => simp [btrfs_util_delete_subvolume, hn, exists_path, throw_error, Node.deletable]
    | dir => simp [btrfs_util_delete_subvolume, hn, exists_path, throw_error, Node.deletable]
    | subvol s =>
      cases hb : s.busy with
      | true =>
        simp [btrfs_util_delete_subvolume, hn, exists_path, throw_error, hb, Node.deletable]
      | false =>
        simp [btrfs_util_delete_subvolume, hn, exists_path, throw_error, hb, FS.set_apply,
          pure_apply, Node.deletable]
        exact eq_comm

theorem sync_ok_iff (env : Env) (w w1 : World) (u : Unit) :
    sync env w = Res.ok u w1 ↔
      is_killed env w.log.length = false ∧ w1 = ⟨w.fs, w.log ++ [Op.sync]⟩ := by
  unfold sync effect
  by_cases hk : is_killed env w.log.length = true
  · simp [hk]
  · simp [hk]; exact eq_comm

theorem snapshot_ok_iff (src snapshot : Path) (env : Env) (w w1 : World) (u : Unit) :
    create_readonly_snapshot src snapshot env w = Res.ok u w1 ↔
      is_killed env w.log.length = false ∧ btrfs_util_is_subvolume w.fs src = true ∧
      (w.fs (parent_path snapshot)).is_dir = true ∧ w.fs snapshot = Node.absent ∧
      env.snap_ok = true ∧
      w1 = ⟨w.fs.set snapshot (Node.subvol (snapshot_subvol env)),
            w.log ++ [Op.create_snapshot src snapshot]⟩ := by
  unfold create_readonly_snapshot effect btrfs_util_create_snapshot
  by_cases hk : is_killed env w.log.length = true
  · simp [hk]
  · simp only [hk]
    by_cases hc : (btrfs_util_is_subvolume w.fs src && (w.fs (parent_path snapshot)).is_dir
      && !exists_path w.fs snapshot && env.snap_ok) = true
    · rw [if_pos hc]
      simp only [Bool.and_eq_true, Bool.not_eq_true', exists_path_eq_false] at hc
      simp [hc]; exact eq_comm
    · rw [if_neg hc]
      simp only [Bool.and_eq_true, Bool.not_eq_true', exists_path_eq_false] at hc
      simp
      tauto

theorem rename_ok_iff (old new : Path) (env : Env) (w w1 : World) (u : Unit) :
    rename old new env w = Res.ok u w1 ↔
      is_killed env w.log.length = false ∧ w.fs old ≠ Node.absent ∧ w.fs new = Node.absent ∧
      w1 = ⟨(w.fs.set new (w.fs old)).set old Node.absent, w.log ++ [Op.rename old new]⟩ := by
  unfold rename effect fs_rename
  by_cases hk : is_killed env w.log.length = true
  · simp [hk]
  · simp only [hk]
    by_cases hc : (exists_path w.fs old && !exists_path w.fs new) = true
    · rw [if_pos hc]
      simp only [Bool.and_eq_true, Bool.not_eq_true', exists_path_eq_false,
        exists_path_eq_true] at hc
      simp [hc]; exact eq_comm
    · rw [if_neg hc]
      simp only [Bool.and_eq_true, Bool.not_eq_true', exists_path_eq_false,
        exists_path_eq_true] at hc
      simp
      tauto

theorem create_directory_ok_iff (p : Path) (env : Env) (w w1 : World) (u : Unit) :
    create_directory p env w = Res.ok u w1 ↔
      is_killed env w.log.length = false ∧
      ((w.fs p = Node.absent ∧ (w.fs (parent_path p)).is_dir = true ∧
          w1 = ⟨w.fs.set p Node.dir, w.log ++ [Op.create_directory p]⟩) ∨
       ((w.fs p).is_dir = true ∧ w1 = ⟨w.fs, w.log ++ [Op.create_directory p]⟩)) := by
  unfold create_directory effect fs_create_directory
  by_cases hk : is_killed env w.log.length = true
  · simp [hk]
  · simp only [hk]
    cases hn : w.fs p with
    | absent =>
      by_cases hp : (w.fs (parent_path p)).is_dir = true
      · simp only [hp, if_true]
        simp [Node.is_dir]; exact eq_comm
      · simp only [hp, if_false]
        simp [Node.is_dir]
    | file => simp [Node.is_dir]
    | dir => simp [Node.is_dir]; exact eq_comm
    | subvol s => simp [Node.is_dir]; exact eq_comm

theorem system_call_ok_iff (parent : Option Path) (snapshot dst : Path) (env : Env)
    (w w1 : World) (rst : Int) :
    system_call parent snapshot dst env w = Res.ok rst w1 ↔
      is_killed env w.log.length = false ∧ rst = (system env w.fs parent snapshot dst).1 ∧
      w1 = ⟨(system env w.fs parent snapshot dst).2,
            w.log ++ [Op.system parent snapshot dst]⟩ := by
  unfold system_call effect
  by_cases hk : is_killed env w.log.length = true
  · simp [hk]
  · simp only [hk]
    constructor
    · intro h
      simp only [Bool.false_eq_true, if_false, Res.ok.injEq] at h
      exact ⟨by simp [hk], h.1.symm, h.2.symm⟩
    · rintro ⟨_, h1, h2⟩
      rw [h1, h2]; simp

theorem to_DOW_ok_iff (p : Path) (env : Env) (w w1 : World) (n : Nat) :
    to_DOW p env w = Res.ok n w1 ↔
      ∃ s, w.fs p = Node.subvol s ∧ n = localtime_wday env.tz s.otime ∧ w1 = w := by
  unfold to_DOW
  simp only [bind_apply, get_fs, btrfs_util_subvolume_info]
  cases hn : w.fs p with
  | subvol s =>
    simp only [bind_apply, get_env, pure_apply, Res.ok.injEq, Node.subvol.injEq, exists_eq_left']
    constructor
    · intro h; exact ⟨h.1.symm, h.2.symm⟩
    · intro h; exact ⟨h.1.symm, h.2.symm⟩
  | _ => simp [throw_error]

/-- The transfer is reported as successful exactly when it was possible and the
pipeline ended with exit status 0; the destination then holds the received
subvolume. -/
theorem system_status_ok_iff (env : Env) (fs : FS) (parent : Option Path) (snapshot dst : Path) :
    (!WIFEXITED (system env fs parent snapshot dst).1
        || WEXITSTATUS (system env fs parent snapshot dst).1 != 0) = false ↔
      ∃ s, fs snapshot = Node.subvol s ∧ transfer_possible fs parent snapshot dst = true ∧
        (WIFEXITED env.rst && WEXITSTATUS env.rst == 0) = true ∧
        (system env fs parent snapshot dst).2 =
          fs.set (dst / filename snapshot) (Node.subvol (received_subvol env s.uuid true)) := by
  unfold system
  cases hn : fs snapshot with
  | subvol s =>
    by_cases ht : transfer_possible fs parent snapshot dst = true
    · by_cases hs : (WIFEXITED env.rst && WEXITSTATUS env.rst == 0) = true
      · simp only [ht, hs, if_true]
        simp at hs
        simp [hs]
      · simp only [ht, hs, if_true, if_false, Bool.false_eq_true]
        have e1 : (if env.recv_partial = true then
            (env.rst, fs.set (dst / filename snapshot)
              (Node.subvol (received_subvol env s.uuid false)))
          else (env.rst, fs)).1 = env.rst := by split <;> rfl
        rw [e1]
        simp at hs ⊢
        exact hs
    · simp [ht, WIFEXITED, WEXITSTATUS]
  | _ => simp [WIFEXITED, WEXITSTATUS]

/-! ## The library calls in sequence -/

theorem delete_bind_ok_iff {β : Type} (p : Path) (f : Unit → M β) (env : Env) (w w2 : World)
    (b : β) :
    (delete_subvolume_if_exists p >>= f) env w = Res.ok b w2 ↔
      is_killed env w.log.length = false ∧ (w.fs p).deletable = true ∧
      f () env ⟨w.fs.set p Node.absent, w.log ++ [Op.delete_subvolume p]⟩ = Res.ok b w2 := by
  simp only [bind_ok_iff, delete_ok_iff]
  constructor
  · rintro ⟨a, w1, ⟨h1, h2, rfl⟩, h3⟩; exact ⟨h1, h2, h3⟩
  · rintro ⟨h1, h2, h3⟩; exact ⟨(), _, ⟨h1, h2, rfl⟩, h3⟩

theorem sync_bind_ok_iff {β : Type} (f : Unit → M β) (env : Env) (w w2 : World) (b : β) :
    (sync >>= f) env w = Res.ok b w2 ↔
      is_killed env w.log.length = false ∧
      f () env ⟨w.fs, w.log ++ [Op.sync]⟩ = Res.ok b w2 := by
  simp only [bind_ok_iff, sync_ok_iff]
  constructor
  · rintro ⟨a, w1, ⟨h1, rfl⟩, h3⟩; exact ⟨h1, h3⟩
  · rintro ⟨h1, h3⟩; exact ⟨(), _, ⟨h1, rfl⟩, h3⟩

theorem snapshot_bind_ok_iff {β : Type} (src snapshot : Path) (f : Unit → M β) (env : Env)
    (w w2 : World) (b : β) :
    (create_readonly_snapshot src snapshot >>= f) env w = Res.ok b w2 ↔
      is_killed env w.log.length = false ∧ btrfs_util_is_subvolume w.fs src = true ∧
      (w.fs (parent_path snapshot)).is_dir = true ∧ w.fs snapshot = Node.absent ∧
      env.snap_ok = true ∧
      f () env ⟨w.fs.set snapshot (Node.subvol (snapshot_subvol env)),
            w.log ++ [Op.create_snapshot src snapshot]⟩ = Res.ok b w2 := by
  simp only [bind_ok_iff, snapshot_ok_iff]
  constructor
  · rintro ⟨a, w1, ⟨h1, h2, h3, h4, h5, rfl⟩, h6⟩; exact ⟨h1, h2, h3, h4, h5, h6⟩
  · rintro ⟨h1, h2, h3, h4, h5, h6⟩; exact ⟨(), _, ⟨h1, h2, h3, h4, h5, rfl⟩, h6⟩

theorem rename_bind_ok_iff {β : Type} (old new : Path) (f : Unit → M β) (env : Env)
    (w w2 : World) (b : β) :
    (rename old new >>= f) env w = Res.ok b w2 ↔
      is_killed env w.log.length = false ∧ w.fs old ≠ Node.absent ∧ w.fs new = Node.absent ∧
      f () env ⟨(w.fs.set new (w.fs old)).set old Node.absent,
        w.log ++ [Op.rename old new]⟩ = Res.ok b w2 := by
  simp only [bind_ok_iff, rename_ok_iff]
  constructor
  · rintro ⟨a, w1, ⟨h1, h2, h3, rfl⟩, h6⟩; exact ⟨h1, h2, h3, h6⟩
  · rintro ⟨h1, h2, h3, h6⟩; exact ⟨(), _, ⟨h1, h2, h3, rfl⟩, h6⟩

theorem system_call_bind_ok_iff {β : Type} (parent : Option Path) (snapshot dst : Path)
    (f : Int → M β) (env : Env) (w w2 : World) (b : β) :
    (system_call parent snapshot dst >>= f) env w = Res.ok b w2 ↔
      is_killed env w.log.length = false ∧
      f (system env w.fs parent snapshot dst).1 env
        ⟨(system env w.fs parent snapshot dst).2,
          w.log ++ [Op.system parent snapshot dst]⟩ = Res.ok b w2 := by
  simp only [bind_ok_iff, system_call_ok_iff]
  constructor
  · rintro ⟨a, w1, ⟨h1, rfl, rfl⟩, h6⟩; exact ⟨h1, h6⟩
  · rintro ⟨h1, h6⟩; exact ⟨_, _, ⟨h1, rfl, rfl⟩, h6⟩

theorem to_DOW_bind_ok_iff {β : Type} (p : Path) (f : Nat → M β) (env : Env) (w w2 : World)
    (b : β) :
    (to_DOW p >>= f) env w = Res.ok b w2 ↔
      ∃ s, w.fs p = Node.subvol s ∧ f (localtime_wday env.tz s.otime) env w = Res.ok b w2 := by
  simp only [bind_ok_iff, to_DOW_ok_iff]
  constructor
  · rintro ⟨a, w1, ⟨s, h1, rfl, rfl⟩, h6⟩; exact ⟨s, h1, h6⟩
  · rintro ⟨s, h1, h6⟩; exact ⟨_, _, ⟨s, h1, rfl, rfl⟩, h6⟩

theorem get_fs_bind_ok_iff {β : Type} (f : FS → M β) (env : Env) (w w2 : World) (b : β) :
    (get_fs >>= f) env w = Res.ok b w2 ↔ f w.fs env w = Res.ok b w2 := by
  simp only [bind_ok_iff, get_fs_ok_iff]
  constructor
  · rintro ⟨a, w1, ⟨rfl, rfl⟩, h6⟩; exact h6
  · rintro h6; exact ⟨_, _, ⟨rfl, rfl⟩, h6⟩

/-! ## A complete incremental run -/

set_option maxHeartbeats 1000000 in
theorem incremental_ok (src dst : Path) (env : Env) (w w1 : World)
    (h : perform_incremental_backup src dst env w = Res.ok () w1) :
    ∃ s, is_killed env (w.log.length + 11) = false ∧ incremental_ready env w.fs src dst s ∧
      w1 = ⟨incremental_result env w.fs src dst (slot_name env s),
            w.log ++ incremental_ops src dst (slot_name env s)⟩ := by
  unfold perform_incremental_backup at h
  simp only [delete_bind_ok_iff, snapshot_bind_ok_iff, sync_bind_ok_iff,
    system_call_bind_ok_iff, ite_ok_iff, throw_bind, throw_ok_iff, pure_bind_M, and_false,
    false_or, Bool.not_eq_true, system_status_ok_iff] at h
  obtain ⟨-, hd1, -, hd2, -, hs1, hs2, hs3, hs4, -, -, ⟨sn, hsn, htp, hrst, hsys⟩, h⟩ := h
  rw [hsys] at h
  simp only [to_DOW_bind_ok_iff, delete_bind_ok_iff, sync_bind_ok_iff, rename_bind_ok_iff,
    rename_ok_iff] at h
  obtain ⟨s, hdow, -, hd3, -, hd4, -, -, hr1, hr1b, -, hr2, hr2b, -, hr3, hr3b, hk, hr4, hr4b,
    rfl⟩ := h
  clear hsys
  simp only [transfer_possible, Bool.and_eq_true, Bool.not_eq_true', exists_path_eq_false,
    filename_div] at htp
  obtain ⟨⟨⟨-, hpar⟩, hdir⟩, hfree⟩ := htp
  have hne : dst ≠ src / ".snapshots" := by
    rintro rfl
    simp [FS.set_apply] at hfree
  have hne2 : ¬ (src / ".snapshots" = dst) := fun h => hne h.symm
  have hsn2 : sn = snapshot_subvol env := by
    simp [FS.set_apply] at hsn
    exact hsn.symm
  subst hsn2
  obtain ⟨hw1, hw2, hw3⟩ := DOWSTR_getD_ne (localtime_wday env.tz s.otime)
  have hs0 : w.fs (src / ".snapshots" / "head") = Node.subvol s := by
    simpa [FS.set_apply, filename_div, path_div_inj, hne, hne2] using hdow
  have hsrc : btrfs_util_is_subvolume w.fs src = true ∧ src ≠ dst / "head.new" := by
    simp only [is_subvolume_iff, FS.set_apply, path_div_div_ne_self,
      Ne.symm (path_div_div_ne_self _ _ _), if_false] at hs1 ⊢
    by_cases hc : src = dst / "head.new"
    · rw [if_pos hc] at hs1; simp at hs1
    · rw [if_neg hc] at hs1; exact ⟨hs1, hc⟩
  have hdir2 : dst = src / ".snapshots" / "head.new" ∨ (w.fs dst).is_dir = true := by
    by_cases hc : dst = src / ".snapshots" / "head.new"
    · exact Or.inl hc
    · right
      simpa [FS.set_apply, hc, path_div_ne_self, Ne.symm (path_div_ne_self _ _)] using hdir
  refine ⟨s, ?_, ⟨hs0, ?_, hd1, ?_, hsrc.1, hsrc.2, ?_, hdir2, hne, ?_, ?_, ?_, hs4, hrst⟩, ?_⟩
  · simpa using hk
  · simpa [is_readonly_subvolume, FS.set_apply, path_div_inj, hs0] using hpar
  · simpa [FS.set_apply, path_div_inj, hne2] using hd2
  · simpa [FS.set_apply, parent_path_div, path_div_ne_self, Ne.symm (path_div_ne_self _ _),
      path_div_inj] using hs2
  · generalize DOWSTR.getD (localtime_wday env.tz s.otime) "" = dow at *
    simpa [FS.set_apply, filename_div, path_div_inj, hne, hne2, hw1, hw2, Ne.symm hw1,
      Ne.symm hw2] using hr2
  · unfold slot_name
    generalize DOWSTR.getD (localtime_wday env.tz s.otime) "" = dow at *
    simpa [FS.set_apply, filename_div, path_div_inj, hne, hne2, hw1, hw2, Ne.symm hw1,
      Ne.symm hw2] using hd3
  · unfold slot_name
    generalize DOWSTR.getD (localtime_wday env.tz s.otime) "" = dow at *
    simpa [FS.set_apply, filename_div, path_div_inj, hne, hne2, hw1, hw2, Ne.symm hw1,
      Ne.symm hw2] using hd4
  · clear hd1 hd2 hs1 hs2 hs3 hs4 hsn hpar hdir hfree hdow hd3 hd4 hr1 hr1b hr2 hr2b hr3 hr3b
      hr4 hr4b hk hsrc hdir2
    unfold slot_name
    generalize DOWSTR.getD (localtime_wday env.tz s.otime) "" = dow at *
    congr 1
    · funext p
      by_cases h1 : p = src / ".snapshots" / "head"
      · subst h1
        simp [incremental_result, FS.set_apply, filename_div, path_div_inj, hne, hne2, hw1, hw2,
          Ne.symm hw1, Ne.symm hw2]
      by_cases h2 : p = dst / "head"
      · subst h2
        simp [incremental_result, snapshot_subvol, FS.set_apply, filename_div, path_div_inj, hne,
          hne2, hw1, hw2, Ne.symm hw1, Ne.symm hw2]
      by_cases h3 : p = src / ".snapshots" / dow
      · subst h3
        simp [incremental_result, FS.set_apply, filename_div, path_div_inj, hne, hne2, hw1, hw2,
          Ne.symm hw1, Ne.symm hw2]
      by_cases h4 : p = dst / dow
      · subst h4
        simp [incremental_result, FS.set_apply, filename_div, path_div_inj, hne, hne2, hw1, hw2,
          Ne.symm hw1, Ne.symm hw2]
      by_cases h5 : p = src / ".snapshots" / "head.new"
      · subst h5
        simp [incremental_result, FS.set_apply, filename_div, path_div_inj, hne, hne2, hw1, hw2,
          Ne.symm hw1, Ne.symm hw2]
      by_cases h6 : p = dst / "head.new"
      · subst h6
        simp [incremental_result, FS.set_apply, filename_div, path_div_inj, hne, hne2, hw1, hw2,
          Ne.symm hw1, Ne.symm hw2]
      simp [incremental_result, FS.set_apply, filename_div, h1, h2, h3, h4, h5, h6]
    · simp [incremental_ops]

theorem system_of_possible (env : Env) (fs : FS) (parent : Option Path) (snapshot dst : Path)
    (s : Subvol) (hs : fs snapshot = Node.subvol s)
    (ht : transfer_possible fs parent snapshot dst = true)
    (hrst : (WIFEXITED env.rst && WEXITSTATUS env.rst == 0) = true) :
    system env fs parent snapshot dst =
      (env.rst, fs.set (dst / filename snapshot) (Node.subvol (received_subvol env s.uuid true))) := by
  unfold system
  simp only [hs, ht, hrst, if_true]

theorem status_ok_of (rst : Int) (h : (WIFEXITED rst && WEXITSTATUS rst == 0) = true) :
    (!WIFEXITED rst || WEXITSTATUS rst != 0) = false := by
  simp at h ⊢
  exact h

set_option maxHeartbeats 1000000 in
theorem incremental_ok_of (src dst : Path) (env : Env) (w : World) (s : Subvol)
    (hk : is_killed env (w.log.length + 11) = false)
    (hr : incremental_ready env w.fs src dst s) :
    perform_incremental_backup src dst env w =
      Res.ok () ⟨incremental_result env w.fs src dst (slot_name env s),
            w.log ++ incremental_ops src dst (slot_name env s)⟩ := by
  have hex : ∃ w1, perform_incremental_backup src dst env w = Res.ok () w1 := by
    obtain ⟨hs0, hro, hd1, hd2, hsrc, hsrc2, hsn, hdir, hne, hdh, hd3, hd4, hsnap, hrst⟩ := hr
    have hne2 : ¬ (src / ".snapshots" = dst) := fun h => hne h.symm
    have hk1 : ∀ m, m ≤ w.log.length + 11 → is_killed env m = false :=
      fun m hm => is_killed_mono env m _ hm hk
    obtain ⟨hw1, hw2, hw3⟩ := DOWSTR_getD_ne (localtime_wday env.tz s.otime)
    unfold slot_name at hd3 hd4
    have hposs : transfer_possible
        (((w.fs.set (dst / "head.new") Node.absent).set (src / ".snapshots" / "head.new")
          Node.absent).set (src / ".snapshots" / "head.new") (Node.subvol (snapshot_subvol env)))
        (some (src / ".snapshots" / "head")) (src / ".snapshots" / "head.new") dst = true := by
      simp only [transfer_possible, Bool.and_eq_true, Bool.not_eq_true', exists_path_eq_false,
        filename_div]
      refine ⟨⟨⟨?_, ?_⟩, ?_⟩, ?_⟩
      · simp [is_readonly_subvolume, FS.set_apply, snapshot_subvol]
      · simp [is_readonly_subvolume, FS.set_apply, path_div_inj, hs0, hro]
      · rcases hdir with hdir | hdir
        · simp [FS.set_apply, hdir, Node.is_dir]
        · by_cases hc : dst = src / ".snapshots" / "head.new"
          · simp [FS.set_apply, hc, Node.is_dir]
          · simp [FS.set_apply, hc, hdir, path_div_ne_self, Ne.symm (path_div_ne_self _ _)]
      · simp [FS.set_apply, path_div_inj, hne]
    have hsys := system_of_possible env _ _ _ _ (snapshot_subvol env)
      (by simp [FS.set_apply]) hposs hrst
    unfold perform_incremental_backup
    simp only [delete_bind_ok_iff, snapshot_bind_ok_iff, sync_bind_ok_iff,
      system_call_bind_ok_iff, ite_ok_iff, throw_bind, throw_ok_iff, pure_bind_M, and_false,
      false_or, Bool.not_eq_true, hsys, status_ok_of env.rst hrst, true_and,
      to_DOW_bind_ok_iff, rename_bind_ok_iff, rename_ok_iff]
    have hsrc3 : ∃ s, w.fs src = Node.subvol s := (is_subvolume_iff _ _).1 hsrc
    have hdir3 : (if dst = src / ".snapshots" / "head.new" then Node.subvol (snapshot_subvol env)
        else w.fs dst).is_dir = true := by
      rcases hdir with hdir | hdir
      · simp [hdir, Node.is_dir]
      · split
        · rfl
        · exact hdir
    refine ⟨_, ?_, ?_, ?_, ?_, ?_, ?_, ?_, ?_, ?_, ?_, ?_, s, ?_, ?_, ?_, ?_, ?_, ?_, ?_, ?_, ?_,
      ?_, ?_, ?_, ?_, ?_, ?_, ?_, ?_, ?_, rfl⟩
    all_goals generalize DOWSTR.getD (localtime_wday env.tz s.otime) "" = dow at *
    all_goals first
      | (apply hk1; (try simp only [List.length_append, List.length_singleton]); omega)
      | ((try simp only [is_subvolume_iff])
         simp [FS.set_apply, filename_div, parent_path_div, path_div_inj, path_div_ne_self,
          path_div_div_ne_self, Ne.symm (path_div_ne_self _ _),
          Ne.symm (path_div_div_ne_self _ _ _), hne, hne2, hw1, hw2, Ne.symm hw1, Ne.symm hw2,
          hs0, hd1, hd2, hd3, hd4, hsrc2, hsn, hdh, hsnap, hsrc3])
  obtain ⟨w1, h1⟩ := hex
  obtain ⟨s1, -, hr1, rfl⟩ := incremental_ok src dst env w w1 h1
  have : s1 = s := by
    have := hr1.1.symm.trans hr.1
    injection this
  subst this
  exact h1

/-! ## A complete full run -/

theorem bind_assoc_M {α β γ : Type} (x : M α) (f : α → M β) (g : β → M γ) :
    x >>= f >>= g = x >>= fun a => f a >>= g := by
  funext env w
  simp only [bind_apply]
  cases x env w <;> rfl

theorem ite_bind_M {α β : Type} (c : Prop) [Decidable c] (a b : M α) (k : α → M β) :
    (if c then a else b) >>= k = if c then a >>= k else b >>= k := by
  split <;> rfl

theorem perform_full_backup_eq (src dst : Path) :
    perform_full_backup src dst =
      (retire_head (src / ".snapshots") >>= fun _ =>
        retire_head dst >>= fun _ => full_transfer src dst) := by
  unfold perform_full_backup retire_head full_transfer
  simp only [bind_assoc_M, ite_bind_M, pure_bind_M]

theorem retire_head_ok (dir : Path) (env : Env) (w w1 : World)
    (h : retire_head dir env w = Res.ok () w1) :
    w1 = ⟨retire_result env w.fs dir, w.log ++ retire_ops env w.fs dir⟩ := by
  unfold retire_head at h
  simp only [get_fs_bind_ok_iff, ite_ok_iff, to_DOW_bind_ok_iff, delete_bind_ok_iff,
    rename_ok_iff, pure_ok_iff] at h
  rcases h with ⟨-, s, hs, -, -, -, -, -, rfl⟩ | ⟨hn, -, rfl⟩
  · obtain ⟨hw1, -, -⟩ := DOWSTR_getD_ne (localtime_wday env.tz s.otime)
    simp only [retire_result, retire_ops, hs, slot_name]
    congr 1
    · funext p
      simp only [FS.set_apply, path_div_inj, Ne.symm hw1, and_false, if_false, hs]
      split_ifs <;> rfl
    · simp
  · simp only [is_subvolume_iff, not_exists] at hn
    have e1 : retire_result env w.fs dir = w.fs := by
      unfold retire_result
      split
      · next s hs => exact absurd hs (hn s)
      · rfl
    have e2 : retire_ops env w.fs dir = [] := by
      unfold retire_ops
      split
      · next s hs => exact absurd hs (hn s)
      · rfl
    rw [e1, e2, List.append_nil]

theorem full_transfer_ok (src dst : Path) (env : Env) (w w1 : World)
    (h : full_transfer src dst env w = Res.ok () w1) :
    dst ≠ src / ".snapshots" ∧ w.fs (src / ".snapshots" / "head") = Node.absent ∧
    w.fs (dst / "head") = Node.absent ∧
    w1 = ⟨((with_directory w.fs (src / ".snapshots")).set (src / ".snapshots" / "head")
            (Node.subvol (snapshot_subvol env))).set (dst / "head")
            (Node.subvol (received_subvol env env.snap.uuid true)),
          w.log ++ [Op.sync, Op.create_directory (src / ".snapshots"),
            Op.create_snapshot src (src / ".snapshots" / "head"), Op.sync,
            Op.system none (src / ".snapshots" / "head") dst]⟩ := by
  unfold full_transfer at h
  simp only [sync_bind_ok_iff, bind_ok_iff (create_directory _), create_directory_ok_iff] at h
  obtain ⟨-, u, w2, ⟨-, hcd⟩, h⟩ := h
  have hw2 : w2 = ⟨with_directory w.fs (src / ".snapshots"),
      w.log ++ [Op.sync] ++ [Op.create_directory (src / ".snapshots")]⟩ := by
    rcases hcd with ⟨ha, -, rfl⟩ | ⟨hd, rfl⟩
    · congr 1
      funext q
      simp only [FS.set_apply, with_directory, ha, if_true]
    · congr 1
      funext q
      have : w.fs (src / ".snapshots") ≠ Node.absent := by
        intro h0; rw [h0] at hd; simp [Node.is_dir] at hd
      simp only [with_directory, this, if_false]
      split
      · next hq => rw [hq]
      · rfl
  subst hw2
  simp only [snapshot_bind_ok_iff, sync_bind_ok_iff, system_call_bind_ok_iff, ite_ok_iff,
    throw_ok_iff, and_false, false_or, Bool.not_eq_true, system_status_ok_iff, pure_ok_iff,
    true_and] at h
  obtain ⟨-, -, -, hfree0, -, -, -, ⟨sn, hsn, htp, -, hsys⟩, rfl⟩ := h
  simp only [transfer_possible, Bool.and_eq_true, Bool.not_eq_true', exists_path_eq_false,
    filename_div] at htp
  obtain ⟨-, hfree⟩ := htp
  have hne : dst ≠ src / ".snapshots" := by
    rintro rfl
    simp [FS.set_apply] at hfree
  have hne2 : ¬ (src / ".snapshots" = dst) := fun h => hne h.symm
  have hsn2 : sn = snapshot_subvol env := by
    simp [FS.set_apply] at hsn
    exact hsn.symm
  subst hsn2
  refine ⟨hne, ?_, ?_, ?_⟩
  · simpa [with_directory, path_div_ne_self] using hfree0
  · simpa [FS.set_apply, path_div_inj, hne, with_directory] using hfree
  · rw [hsys, filename_div]
    congr 1
    simp [snapshot_subvol]

theorem retired_slot_eq_some (env : Env) (fs : FS) (dir p : Path)
    (h : retired_slot env fs dir = some p) :
    ∃ s, fs (dir / "head") = Node.subvol s ∧ p = dir / slot_name env s := by
  unfold retired_slot at h
  cases hn : fs (dir / "head") with
  | subvol s =>
    rw [hn] at h
    simp only [Option.some.injEq] at h
    exact ⟨s, rfl, h.symm⟩
  | _ => rw [hn] at h; simp at h

theorem retire_result_apply (env : Env) (fs : FS) (dir p : Path) (hp : p ≠ dir / "head") :
    retire_result env fs dir p =
      if retired_slot env fs dir = some p then fs (dir / "head") else fs p := by
  unfold retire_result retired_slot
  cases hn : fs (dir / "head") with
  | subvol s =>
    simp only [FS.set_apply, hp, if_false, Option.some.injEq]
    by_cases hc : p = dir / slot_name env s
    · rw [if_pos hc, if_pos hc.symm]
    · rw [if_neg hc, if_neg (fun h => hc h.symm)]
  | _ => simp

set_option maxHeartbeats 1000000 in
theorem full_ok (src dst : Path) (env : Env) (w w1 : World)
    (h : perform_full_backup src dst env w = Res.ok () w1) :
    dst ≠ src / ".snapshots" ∧
    w1 = ⟨full_result env w.fs src dst, w.log ++ full_ops env w.fs src dst⟩ := by
  rw [perform_full_backup_eq] at h
  simp only [bind_ok_iff] at h
  obtain ⟨_, w2, h1, _, w3, h2, h3⟩ := h
  have e1 := retire_head_ok _ _ _ _ h1
  subst e1
  have e2 := retire_head_ok _ _ _ _ h2
  subst e2
  obtain ⟨hne, hf1, hf2, rfl⟩ := full_transfer_ok _ _ _ _ _ h3
  have hne2 : ¬ (src / ".snapshots" = dst) := fun h => hne h.symm
  have hnosrc : ∀ p, retired_slot env w.fs (src / ".snapshots") = some p →
      p ≠ dst / "head" ∧ p ≠ src / ".snapshots" ∧ retired_slot env w.fs dst ≠ some p := by
    intro p hp
    obtain ⟨s, -, rfl⟩ := retired_slot_eq_some _ _ _ _ hp
    obtain ⟨hw1, -, -⟩ := DOWSTR_getD_ne (localtime_wday env.tz s.otime)
    refine ⟨?_, path_div_ne_self _ _, ?_⟩
    · simp [path_div_inj, hne2]
    · intro h2
      obtain ⟨s2, -, h3⟩ := retired_slot_eq_some _ _ _ _ h2
      simp [path_div_inj, hne2] at h3
  have hnodst : ∀ p, retired_slot env w.fs dst = some p → p ≠ src / ".snapshots" := by
    intro p hp
    obtain ⟨s, -, rfl⟩ := retired_slot_eq_some _ _ _ _ hp
    obtain ⟨-, -, hw3⟩ := DOWSTR_getD_ne (localtime_wday env.tz s.otime)
    intro h
    exact hw3 ((path_div_inj _ _ _ _).1 h).2
  have hdh : retire_result env w.fs (src / ".snapshots") (dst / "head") = w.fs (dst / "head") := by
    rw [retire_result_apply _ _ _ _ (by simp [path_div_inj, hne])]
    split
    · next hc => exact absurd rfl (hnosrc _ hc).1
    · rfl
  have hslot : retired_slot env (retire_result env w.fs (src / ".snapshots")) dst =
      retired_slot env w.fs dst := by
    unfold retired_slot
    rw [hdh]
  have hops : retire_ops env (retire_result env w.fs (src / ".snapshots")) dst =
      retire_ops env w.fs dst := by
    unfold retire_ops
    rw [hdh]
  refine ⟨hne, ?_⟩
  congr 1
  · funext p
    by_cases p1 : p = src / ".snapshots" / "head"
    · subst p1
      simp [full_result, FS.set_apply, path_div_inj, hne2]
    by_cases p2 : p = dst / "head"
    · subst p2
      simp [full_result, FS.set_apply, path_div_inj, hne]
    have hsn1 : (src / ".snapshots" : Path) ≠ dst / "head" := by
      simp [path_div_inj]
    have hsn2 : (src / ".snapshots" : Path) ≠ src / ".snapshots" / "head" :=
      Ne.symm (path_div_ne_self _ _)
    have hRRsn : retire_result env (retire_result env w.fs (src / ".snapshots")) dst
        (src / ".snapshots") = w.fs (src / ".snapshots") := by
      rw [retire_result_apply _ _ _ _ hsn1, hslot, if_neg (fun h => hnodst _ h rfl),
        retire_result_apply _ _ _ _ hsn2, if_neg (fun h => (hnosrc _ h).2.1 rfl)]
    simp only [full_result, FS.set_apply, p1, p2, if_false, with_directory, hRRsn]
    rw [retire_result_apply _ _ _ _ p2, hslot, hdh, retire_result_apply _ _ _ _ p1]
    by_cases c1 : retired_slot env w.fs (src / ".snapshots") = some p
    · have := hnosrc p c1
      simp only [c1, if_true, this.2.1, this.2.2, if_false]
    · by_cases c2 : retired_slot env w.fs dst = some p
      · have := hnodst p c2
        simp only [c1, c2, if_true, if_false, this]
      · simp only [c1, c2, if_false]
        split
        · next c3 => rw [c3]
        · rfl
  · simp only [full_ops, hops, List.append_assoc]

/-! ## `main` -/

theorem must_be_a_subvolume_apply (p : Path) (env : Env) (w : World) :
    must_be_a_subvolume p env w =
      if btrfs_util_is_subvolume w.fs p = true then Res.ok () w
      else Res.fail (Err.not_a_subvolume p) w := by
  unfold must_be_a_subvolume
  simp only [bind_apply, get_fs]
  cases btrfs_util_is_subvolume w.fs p <;> rfl

theorem try_block_apply (src dst : Path) (env : Env) (w : World) :
    try_block src dst env w =
      if btrfs_util_is_subvolume w.fs src = true then
        if btrfs_util_is_subvolume w.fs dst = true then
          if incremental_backup_possible w.fs src dst = true then
            perform_incremental_backup src dst env w
          else perform_full_backup src dst env w
        else Res.fail (Err.not_a_subvolume dst) w
      else Res.fail (Err.not_a_subvolume src) w := by
  unfold try_block
  simp only [bind_apply, must_be_a_subvolume_apply, get_fs]
  by_cases h1 : btrfs_util_is_subvolume w.fs src = true
  · by_cases h2 : btrfs_util_is_subvolume w.fs dst = true
    · simp only [h1, h2, if_true]
      split <;> rfl
    · simp only [h1, h2, if_true, if_false, Bool.false_eq_true]
  · simp only [h1, if_false, Bool.false_eq_true]

theorem main_returned_zero (src dst : Path) (env : Env) (fs : FS) (w1 : World)
    (h : main [src, dst] env fs = (Exit.returned 0, w1)) :
    try_block src dst env ⟨fs, []⟩ = Res.ok () w1 := by
  have h1 : catch_runtime_error (try_block src dst env ⟨fs, []⟩) = (Exit.returned 0, w1) := h
  cases hr : try_block src dst env ⟨fs, []⟩ with
  | ok u w =>
    rw [hr] at h1
    simp only [catch_runtime_error, Prod.mk.injEq, true_and] at h1
    rw [h1]
  | fail e w =>
    rw [hr] at h1
    cases e <;> simp [catch_runtime_error] at h1

theorem main_ok (src dst : Path) (env : Env) (fs : FS) (w1 : World)
    (h : main [src, dst] env fs = (Exit.returned 0, w1)) :
    btrfs_util_is_subvolume fs src = true ∧ btrfs_util_is_subvolume fs dst = true ∧
    ((incremental_backup_possible fs src dst = true ∧
        perform_incremental_backup src dst env ⟨fs, []⟩ = Res.ok () w1) ∨
     (incremental_backup_possible fs src dst = false ∧
        perform_full_backup src dst env ⟨fs, []⟩ = Res.ok () w1)) := by
  have h1 := main_returned_zero src dst env fs w1 h
  rw [try_block_apply] at h1
  by_cases hs : btrfs_util_is_subvolume fs src = true
  · by_cases hd : btrfs_util_is_subvolume fs dst = true
    · simp only [hs, hd, if_true] at h1
      refine ⟨hs, hd, ?_⟩
      by_cases hm : incremental_backup_possible fs src dst = true
      · rw [if_pos hm] at h1; exact Or.inl ⟨hm, h1⟩
      · rw [if_neg hm] at h1
        exact Or.inr ⟨by simpa using hm, h1⟩
    · simp [hs, hd] at h1
  · simp [hs] at h1

theorem mode_heads (fs : FS) (src dst : Path)
    (h : incremental_backup_possible fs src dst = true) :
    ∃ s d, fs (src / ".snapshots" / "head") = Node.subvol s ∧
      fs (dst / "head") = Node.subvol d ∧ to_string s.uuid = to_string d.received_uuid := by
  unfold incremental_backup_possible btrfs_util_subvolume_info at h
  cases hs : fs (src / ".snapshots" / "head") with
  | subvol s =>
    cases hd : fs (dst / "head") with
    | subvol d =>
      simp only [hs, hd, beq_iff_eq] at h
      exact ⟨s, d, rfl, rfl, h⟩
    | _ => simp [hs, hd] at h
  | _ => simp [hs] at h

theorem mode_of_heads (fs : FS) (src dst : Path) (s d : Subvol)
    (hs : fs (src / ".snapshots" / "head") = Node.subvol s)
    (hd : fs (dst / "head") = Node.subvol d) (hu : d.received_uuid = s.uuid) :
    incremental_backup_possible fs src dst = true := by
  unfold incremental_backup_possible btrfs_util_subvolume_info
  simp [hs, hd, hu]

/-! ## Formatting of UUIDs -/

theorem hex_digit_inj (m n : Nat) (hm : m < 16) (hn : n < 16)
    (h : hex_digit m = hex_digit n) : m = n := by
  have key : ∀ k, k < 16 → (hex_digit k).toNat = if k < 10 then 48 + k else 87 + k := by
    intro k hk
    interval_cases k <;> rfl
  have := congrArg Char.toNat h
  rw [key m hm, key n hn] at this
  split at this <;> split at this <;> omega

theorem fmt_02x_inj (a b : Fin 256) (h : fmt_02x a = fmt_02x b) : a = b := by
  unfold fmt_02x at h
  simp only [List.cons.injEq, and_true] at h
  have h1 := hex_digit_inj _ _ (by omega) (by omega) h.1
  have h2 := hex_digit_inj _ _ (Nat.mod_lt _ (by decide)) (Nat.mod_lt _ (by decide)) h.2
  apply Fin.ext
  omega

theorem to_string_inj (a b : UUID) (h : to_string a = to_string b) : a = b := by
  unfold to_string at h
  have h1 := congrArg String.data h
  simp only [fmt_02x, List.cons_append, List.nil_append, List.cons.injEq, and_true, true_and] at h1
  have key : ∀ i, fmt_02x (a i) = fmt_02x (b i) := by
    intro i
    unfold fmt_02x
    fin_cases i <;> simp [h1]
  funext i
  exact fmt_02x_inj _ _ (key i)

/-! ## Rules for `triple` -/

theorem triple_bind {α β : Type} (env : Env) (P : World → Prop) (x : M α) (f : α → M β)
    (Q : α → World → Prop) (R : β → World → Prop) (E : Err → World → Prop)
    (hx : triple env P x Q E) (hf : ∀ a, triple env (Q a) (f a) R E) :
    triple env P (x >>= f) R E := by
  intro w hw
  have h1 := hx w hw
  rw [bind_apply]
  cases hr : x env w with
  | ok a w1 =>
    rw [hr] at h1
    exact hf a w1 h1
  | fail e w1 =>
    rw [hr] at h1
    exact h1

theorem triple_pure {α : Type} (env : Env) (P : World → Prop) (a : α)
    (Q : α → World → Prop) (E : Err → World → Prop) (h : ∀ w, P w → Q a w) :
    triple env P (pure a) Q E := fun w hw => h w hw

theorem triple_throw {α : Type} (env : Env) (P : World → Prop) (e : Err)
    (Q : α → World → Prop) (E : Err → World → Prop) (h : ∀ w, P w → E e w) :
    triple env P (throw_error e : M α) Q E := fun w hw => h w hw

theorem triple_ite {α : Type} (env : Env) (P : World → Prop) (c : Prop) [Decidable c]
    (a b : M α) (Q : α → World → Prop) (E : Err → World → Prop)
    (ha : c → triple env P a Q E) (hb : ¬c → triple env P b Q E) :
    triple env P (if c then a else b) Q E := by
  by_cases h : c
  · rw [if_pos h]; exact ha h
  · rw [if_neg h]; exact hb h

theorem triple_effect {α : Type} (env : Env) (P : World → Prop) (op : Op)
    (f : Env → FS → Except Err (α × FS)) (Q : α → World → Prop) (E : Err → World → Prop)
    (hk : ∀ w, P w → E Err.killed w)
    (hf : ∀ w, P w → match f env w.fs with
      | Except.ok (a, fs1) => Q a ⟨fs1, w.log ++ [op]⟩
      | Except.error e => E e ⟨w.fs, w.log ++ [op]⟩) :
    triple env P (effect op f) Q E := by
  intro w hw
  unfold effect
  by_cases hc : is_killed env w.log.length = true
  · simp only [hc, if_true]
    exact hk w hw
  · simp only [hc, if_false]
    have := hf w hw
    cases hr : f env w.fs with
    | ok r =>
      obtain ⟨a, fs1⟩ := r
      rw [hr] at this
      exact this
    | error e =>
      rw [hr] at this
      exact this

theorem triple_get_fs (env : Env) (P : World → Prop) (Q : FS → World → Prop)
    (E : Err → World → Prop) (h : ∀ w, P w → Q w.fs w) :
    triple env P get_fs Q E := fun w hw => h w hw

theorem delete_apply (p : Path) (env : Env) (w : World) :
    delete_subvolume_if_exists p env w =
      if is_killed env w.log.length = true then Res.fail Err.killed w
      else if (w.fs p).deletable = true then
        Res.ok () ⟨w.fs.set p Node.absent, w.log ++ [Op.delete_subvolume p]⟩
      else Res.fail (Err.cannot_be_deleted p) ⟨w.fs, w.log ++ [Op.delete_subvolume p]⟩ := by
  unfold delete_subvolume_if_exists
  simp only [bind_apply, effect, get_fs]
  by_cases hc : is_killed env w.log.length = true
  · simp only [hc, if_true]
  · simp only [hc, if_false]
    cases hn : w.fs p with
    | absent =>
      simp [btrfs_util_delete_subvolume, hn, exists_path, pure_apply, Node.deletable,
        FS.set_absent_of_absent]
    | file => simp [btrfs_util_delete_subvolume, hn, exists_path, throw_error, Node.deletable]
    | dir => simp [btrfs_util_delete_subvolume, hn, exists_path, throw_error, Node.deletable]
    | subvol s =>
      cases hb : s.busy with
      | true =>
        simp [btrfs_util_delete_subvolume, hn, exists_path, throw_error, hb, Node.deletable]
      | false =>
        simp [btrfs_util_delete_subvolume, hn, exists_path, hb, FS.set_apply, pure_apply,
          Node.deletable]

theorem triple_delete (env : Env) (P : World → Prop) (p : Path) (Q : Unit → World → Prop)
    (E : Err → World → Prop)
    (hk : ∀ w, P w → E Err.killed w)
    (he : ∀ w, P w → E (Err.cannot_be_deleted p) ⟨w.fs, w.log ++ [Op.delete_subvolume p]⟩)
    (hq : ∀ w, P w → (w.fs p).deletable = true →
      Q () ⟨w.fs.set p Node.absent, w.log ++ [Op.delete_subvolume p]⟩) :
    triple env P (delete_subvolume_if_exists p) Q E := by
  intro w hw
  rw [delete_apply]
  by_cases hc : is_killed env w.log.length = true
  · simp only [hc, if_true]
    exact hk w hw
  · by_cases hd : (w.fs p).deletable = true
    · simp only [hc, hd, if_true, if_false]
      exact hq w hw hd
    · simp only [hc, hd, if_false]
      exact he w hw

theorem triple_sync (env : Env) (P : World → Prop) (Q : Unit → World → Prop)
    (E : Err → World → Prop)
    (hk : ∀ w, P w → E Err.killed w)
    (hq : ∀ w, P w → Q () ⟨w.fs, w.log ++ [Op.sync]⟩) :
    triple env P sync Q E :=
  triple_effect env P _ _ Q E hk (fun w hw => hq w hw)

theorem triple_snapshot (env : Env) (P : World → Prop) (src snapshot : Path)
    (Q : Unit → World → Prop) (E : Err → World → Prop)
    (hk : ∀ w, P w → E Err.killed w)
    (he : ∀ w, P w → E (Err.snapshot_failed snapshot)
      ⟨w.fs, w.log ++ [Op.create_snapshot src snapshot]⟩)
    (hq : ∀ w, P w → w.fs snapshot = Node.absent →
      Q () ⟨w.fs.set snapshot (Node.subvol (snapshot_subvol env)),
        w.log ++ [Op.create_snapshot src snapshot]⟩) :
    triple env P (create_readonly_snapshot src snapshot) Q E := by
  apply triple_effect env P _ _ Q E hk
  intro w hw
  unfold btrfs_util_create_snapshot
  by_cases hc : (btrfs_util_is_subvolume w.fs src && (w.fs (parent_path snapshot)).is_dir
      && !exists_path w.fs snapshot && env.snap_ok) = true
  · simp only [hc, if_true]
    simp only [Bool.and_eq_true, Bool.not_eq_true', exists_path_eq_false] at hc
    exact hq w hw hc.1.2
  · simp only [hc, if_false]
    exact he w hw

theorem triple_rename (env : Env) (P : World → Prop) (old new : Path)
    (Q : Unit → World → Prop) (E : Err → World → Prop)
    (hk : ∀ w, P w → E Err.killed w)
    (he : ∀ w, P w → E (Err.filesystem_error old) ⟨w.fs, w.log ++ [Op.rename old new]⟩)
    (hq : ∀ w, P w →
      Q () ⟨(w.fs.set new (w.fs old)).set old Node.absent, w.log ++ [Op.rename old new]⟩) :
    triple env P (rename old new) Q E := by
  apply triple_effect env P _ _ Q E hk
  intro w hw
  unfold fs_rename
  by_cases hc : (exists_path w.fs old && !exists_path w.fs new) = true
  · simp only [hc, if_true]
    exact hq w hw
  · simp only [hc, if_false]
    exact he w hw

theorem triple_system_call (env : Env) (P : World → Prop) (parent : Option Path)
    (snapshot dst : Path) (Q : Int → World → Prop) (E : Err → World → Prop)
    (hk : ∀ w, P w → E Err.killed w)
    (hq : ∀ w, P w → Q (system env w.fs parent snapshot dst).1
      ⟨(system env w.fs parent snapshot dst).2, w.log ++ [Op.system parent snapshot dst]⟩) :
    triple env P (system_call parent snapshot dst) Q E :=
  triple_effect env P _ _ Q E hk (fun w hw => hq w hw)

theorem triple_to_DOW (env : Env) (P : World → Prop) (p : Path) (Q : Nat → World → Prop)
    (E : Err → World → Prop)
    (he : ∀ w, P w → E (Err.inspect_failed p) w)
    (hq : ∀ w s, P w → w.fs p = Node.subvol s → Q (localtime_wday env.tz s.otime) w) :
    triple env P (to_DOW p) Q E := by
  intro w hw
  unfold to_DOW
  simp only [bind_apply, get_fs, btrfs_util_subvolume_info]
  cases hn : w.fs p with
  | subvol s =>
    simp only [bind_apply, get_env, pure_apply]
    exact hq w s hw hn
  | _ => exact he w hw

/-! ## The claims -/

/-- C1: for roots that pass validation, `main` runs the incremental backup
exactly when the information of both heads can be read and the 16 bytes of the
source head's uuid equal the 16 bytes of the destination head's received uuid,
and the full backup in every other case; comparing the strings made by
`to_string` is the same as comparing the 16 bytes. -/
theorem C1_mode_selection (env : Env) (fs : FS) (src dst : Path)
    (hsrc : btrfs_util_is_subvolume fs src = true)
    (hdst : btrfs_util_is_subvolume fs dst = true) :
    (∀ a b : UUID, to_string a = to_string b ↔ ∀ i, a i = b i) ∧
    (incremental_backup_possible fs src dst = true ↔
      ∃ s d, btrfs_util_subvolume_info fs (src / ".snapshots" / "head") = some s ∧
        btrfs_util_subvolume_info fs (dst / "head") = some d ∧
        ∀ i, s.uuid i = d.received_uuid i) ∧
    (incremental_backup_possible fs src dst = true →
      main [src, dst] env fs =
        catch_runtime_error (perform_incremental_backup src dst env ⟨fs, []⟩)) ∧
    (incremental_backup_possible fs src dst = false →
      main [src, dst] env fs =
        catch_runtime_error (perform_full_backup src dst env ⟨fs, []⟩)) := by
  have hstr : ∀ a b : UUID, to_string a = to_string b ↔ ∀ i, a i = b i := by
    intro a b
    constructor
    · intro h i
      rw [to_string_inj a b h]
    · intro h
      rw [funext h]
  refine ⟨hstr, ?_, ?_, ?_⟩
  · unfold incremental_backup_possible
    cases hs : btrfs_util_subvolume_info fs (src / ".snapshots" / "head") with
    | none => simp
    | some s =>
      cases hd : btrfs_util_subvolume_info fs (dst / "head") with
      | none => simp
      | some d =>
        simp only [beq_iff_eq, hstr, Option.some.injEq]
        constructor
        · intro h; exact ⟨s, d, rfl, rfl, h⟩
        · rintro ⟨s1, d1, rfl, rfl, h⟩; exact h
  · intro hm
    show catch_runtime_error (try_block src dst env ⟨fs, []⟩) = _
    rw [try_block_apply]
    simp only [hsrc, hdst, hm, if_true]
  · intro hm
    show catch_runtime_error (try_block src dst env ⟨fs, []⟩) = _
    rw [try_block_apply]
    simp only [hsrc, hdst, hm, if_true, Bool.false_eq_true, if_false]

/-- C1 at the state a first full run leaves: the heads match, the mode is
incremental. -/
theorem C1_mode_selection_witness :
    btrfs_util_is_subvolume ex_after_full ex_src = true ∧
    btrfs_util_is_subvolume ex_after_full ex_dst = true ∧
    incremental_backup_possible ex_after_full ex_src ex_dst = true ∧
    (main [ex_src, ex_dst] (ex_env 1) ex_after_full =
      catch_runtime_error
        (perform_incremental_backup ex_src ex_dst (ex_env 1) ⟨ex_after_full, []⟩)) :=
  ⟨by decide, by decide, by decide,
   (C1_mode_selection (ex_env 1) ex_after_full ex_src ex_dst (by decide) (by decide)).2.2.1
     (by decide)⟩

/-- C2: with two path arguments, when the source root or the destination root
is not a subvolume, `main` returns 1, no external call (delete, snapshot,
directory creation, rename, flush, transfer) has been made and the file system
is the one the run found. -/
theorem C2_validation_no_mutation (env : Env) (fs : FS) (src dst : Path)
    (h : btrfs_util_is_subvolume fs src = false ∨ btrfs_util_is_subvolume fs dst = false) :
    main [src, dst] env fs = (Exit.returned 1, ⟨fs, []⟩) := by
  show catch_runtime_error (try_block src dst env ⟨fs, []⟩) = _
  rw [try_block_apply]
  rcases h with h | h
  · simp only [h, Bool.false_eq_true, if_false, catch_runtime_error]
  · cases hs : btrfs_util_is_subvolume fs src
    · simp only [Bool.false_eq_true, if_false, catch_runtime_error]
    · simp only [h, Bool.false_eq_true, if_false, if_true, catch_runtime_error]

/-- C2 for a source root that does not exist. -/
theorem C2_validation_no_mutation_witness :
    btrfs_util_is_subvolume ex_fresh ["mnt", "nothing"] = false ∧
    main [["mnt", "nothing"], ex_dst] (ex_env 0) ex_fresh = (Exit.returned 1, ⟨ex_fresh, []⟩) :=
  ⟨by decide,
   C2_validation_no_mutation (ex_env 0) ex_fresh ["mnt", "nothing"] ex_dst (Or.inl (by decide))⟩

/-- C4: when the incremental backup is selected and the run returns 0, with `W`
the weekday slot named by the creation time of the old source head: the slot
`W` of the source holds the old source head and the slot `W` of the destination
the old destination head, the source head is the snapshot made in this run, the
destination head is the subvolume received in this run, `head.new` is gone on
both sides, and every other weekday slot is as it was on both sides. -/
theorem C4_incremental_rotation (env : Env) (fs : FS) (src dst : Path) (w1 : World)
    (hmode : incremental_backup_possible fs src dst = true)
    (h : main [src, dst] env fs = (Exit.returned 0, w1)) :
    ∃ s d, fs (src / ".snapshots" / "head") = Node.subvol s ∧
      fs (dst / "head") = Node.subvol d ∧
      localtime_wday env.tz s.otime < 7 ∧
      w1.fs (src / ".snapshots" / DOWSTR.getD (localtime_wday env.tz s.otime) "") = Node.subvol s ∧
      w1.fs (dst / DOWSTR.getD (localtime_wday env.tz s.otime) "") = Node.subvol d ∧
      w1.fs (src / ".snapshots" / "head") = Node.subvol (snapshot_subvol env) ∧
      w1.fs (dst / "head") = Node.subvol (received_subvol env (snapshot_subvol env).uuid true) ∧
      w1.fs (src / ".snapshots" / "head.new") = Node.absent ∧
      w1.fs (dst / "head.new") = Node.absent ∧
      (∀ name ∈ DOWSTR, name ≠ DOWSTR.getD (localtime_wday env.tz s.otime) "" →
        w1.fs (src / ".snapshots" / name) = fs (src / ".snapshots" / name) ∧
        w1.fs (dst / name) = fs (dst / name)) ∧
      w1.log = incremental_ops src dst (DOWSTR.getD (localtime_wday env.tz s.otime) "") := by
  obtain ⟨-, -, ⟨-, hrun⟩ | ⟨hm, -⟩⟩ := main_ok src dst env fs w1 h
  · obtain ⟨s, -, hr, rfl⟩ := incremental_ok src dst env _ w1 hrun
    obtain ⟨hs0, -, -, -, -, -, -, -, hne, hdh, -⟩ := hr
    have hne2 : ¬ (src / ".snapshots" = dst) := fun h => hne h.symm
    simp only [] at hs0 hdh ⊢
    obtain ⟨s2, d, hs2, hd0, -⟩ := mode_heads fs src dst hmode
    obtain ⟨hw1, hw2, -⟩ := DOWSTR_getD_ne (localtime_wday env.tz s.otime)
    refine ⟨s, d, hs0, hd0, localtime_wday_lt _ _, ?_, ?_, ?_, ?_, ?_, ?_, ?_, ?_⟩
    · simp only [incremental_result, slot_name, path_div_inj, hw1, hne2, if_true, if_false,
        and_false, false_and, and_self, true_and]
      exact hs0
    · simp only [incremental_result, slot_name, path_div_inj, hw1, hne, hne2, if_true, if_false,
        and_false, false_and, and_self, true_and]
      exact hd0
    · simp only [incremental_result, if_true]
    · simp only [incremental_result, path_div_inj, hne, false_and, if_false, if_true,
        snapshot_subvol]
    · simp only [incremental_result, slot_name, path_div_inj, Ne.symm hw2, hne2, if_true,
        if_false, and_false, false_and, and_self, true_and]
      simp
    · simp only [incremental_result, slot_name, path_div_inj, Ne.symm hw2, hne, if_true,
        if_false, and_false, false_and, and_self, true_and]
      simp
    · intro name hname hneq
      have hn1 : name ≠ "head" ∧ name ≠ "head.new" := by
        simp only [DOWSTR, List.mem_cons, List.mem_singleton, List.not_mem_nil, or_false] at hname
        rcases hname with rfl | rfl | rfl | rfl | rfl | rfl | rfl <;> decide
      constructor
      · simp only [incremental_result, slot_name, path_div_inj, hn1.1, hn1.2, hneq, hne2,
          if_false, and_false, false_and, and_self, true_and]
      · simp only [incremental_result, slot_name, path_div_inj, hn1.1, hn1.2, hneq, hne,
          if_false, and_false, false_and, and_self, true_and]
    · simp only [List.nil_append, slot_name]
  · rw [hm] at hmode
    exact absurd hmode (by decide)

/-- C4 on the day after a first full run: the head of day 0, a Thursday, ends
in the slot `Thu` on both sides. -/
theorem C4_incremental_rotation_witness :
    incremental_backup_possible ex_after_full ex_src ex_dst = true ∧
    main [ex_src, ex_dst] (ex_env 1) ex_after_full =
      (Exit.returned 0, (main [ex_src, ex_dst] (ex_env 1) ex_after_full).2) ∧
    ∃ s d, ex_after_full (ex_src / ".snapshots" / "head") = Node.subvol s ∧
      ex_after_full (ex_dst / "head") = Node.subvol d ∧
      localtime_wday (ex_env 1).tz s.otime < 7 ∧
      (main [ex_src, ex_dst] (ex_env 1) ex_after_full).2.fs
        (ex_src / ".snapshots" / DOWSTR.getD (localtime_wday (ex_env 1).tz s.otime) "") =
          Node.subvol s ∧
      (main [ex_src, ex_dst] (ex_env 1) ex_after_full).2.fs
        (ex_dst / DOWSTR.getD (localtime_wday (ex_env 1).tz s.otime) "") = Node.subvol d ∧
      (main [ex_src, ex_dst] (ex_env 1) ex_after_full).2.fs (ex_src / ".snapshots" / "head") =
        Node.subvol (snapshot_subvol (ex_env 1)) ∧
      (main [ex_src, ex_dst] (ex_env 1) ex_after_full).2.fs (ex_dst / "head") =
        Node.subvol (received_subvol (ex_env 1) (snapshot_subvol (ex_env 1)).uuid true) ∧
      (main [ex_src, ex_dst] (ex_env 1) ex_after_full).2.fs (ex_src / ".snapshots" / "head.new") =
        Node.absent ∧
      (main [ex_src, ex_dst] (ex_env 1) ex_after_full).2.fs (ex_dst / "head.new") = Node.absent ∧
      (∀ name ∈ DOWSTR, name ≠ DOWSTR.getD (localtime_wday (ex_env 1).tz s.otime) "" →
        (main [ex_src, ex_dst] (ex_env 1) ex_after_full).2.fs (ex_src / ".snapshots" / name) =
          ex_after_full (ex_src / ".snapshots" / name) ∧
        (main [ex_src, ex_dst] (ex_env 1) ex_after_full).2.fs (ex_dst / name) =
          ex_after_full (ex_dst / name)) ∧
      (main [ex_src, ex_dst] (ex_env 1) ex_after_full).2.log =
        incremental_ops ex_src ex_dst (DOWSTR.getD (localtime_wday (ex_env 1).tz s.otime) "") :=
  ⟨by decide, Prod.ext (by decide) rfl,
   C4_incremental_rotation (ex_env 1) ex_after_full ex_src ex_dst _ (by decide)
     (Prod.ext (by decide) rfl)⟩

/-- C6, as the specification states it, fails: on a path that is an existing
directory and not a subvolume, `delete_subvolume_if_exists` does not return
normally, it throws "cannot be deleted". -/
theorem C6_delete_idempotent_counterexample :
    (ex_fresh.set ["mnt", "backup", "Mon"] Node.dir) ["mnt", "backup", "Mon"] = Node.dir ∧
    btrfs_util_is_subvolume (ex_fresh.set ["mnt", "backup", "Mon"] Node.dir)
      ["mnt", "backup", "Mon"] = false ∧
    delete_subvolume_if_exists ["mnt", "backup", "Mon"] (ex_env 0)
        ⟨ex_fresh.set ["mnt", "backup", "Mon"] Node.dir, []⟩ =
      Res.fail (Err.cannot_be_deleted ["mnt", "backup", "Mon"])
        ⟨ex_fresh.set ["mnt", "backup", "Mon"] Node.dir,
         [Op.delete_subvolume ["mnt", "backup", "Mon"]]⟩ :=
  ⟨by decide, by decide, rfl⟩

/-- C6, amended: when the process is not killed, `delete_subvolume_if_exists`
on an absent path returns normally and leaves the file system unchanged, on a
first and on a second call; on an existing file or directory that is not a
subvolume it throws and leaves the file system unchanged; on a subvolume that
is not in use the first call removes it and returns normally and a second call
returns normally and changes nothing. -/
theorem C6_delete_idempotent (env : Env) (fs : FS) (log : List Op) (p : Path)
    (hk : env.kill_after = none) :
    (fs p = Node.absent →
      delete_subvolume_if_exists p env ⟨fs, log⟩ =
        Res.ok () ⟨fs, log ++ [Op.delete_subvolume p]⟩ ∧
      delete_subvolume_if_exists p env ⟨fs, log ++ [Op.delete_subvolume p]⟩ =
        Res.ok () ⟨fs, log ++ [Op.delete_subvolume p] ++ [Op.delete_subvolume p]⟩) ∧
    ((fs p = Node.file ∨ fs p = Node.dir) →
      delete_subvolume_if_exists p env ⟨fs, log⟩ =
        Res.fail (Err.cannot_be_deleted p) ⟨fs, log ++ [Op.delete_subvolume p]⟩) ∧
    (∀ s, fs p = Node.subvol s → s.busy = false →
      delete_subvolume_if_exists p env ⟨fs, log⟩ =
        Res.ok () ⟨fs.set p Node.absent, log ++ [Op.delete_subvolume p]⟩ ∧
      (fs.set p Node.absent) p = Node.absent ∧
      delete_subvolume_if_exists p env
          ⟨fs.set p Node.absent, log ++ [Op.delete_subvolume p]⟩ =
        Res.ok () ⟨fs.set p Node.absent,
          log ++ [Op.delete_subvolume p] ++ [Op.delete_subvolume p]⟩) := by
  have habs : ∀ (g : FS) (l : List Op), g p = Node.absent →
      delete_subvolume_if_exists p env ⟨g, l⟩ = Res.ok () ⟨g, l ++ [Op.delete_subvolume p]⟩ := by
    intro g l hg
    rw [delete_ok_iff]
    refine ⟨is_killed_none env _ hk, ?_, ?_⟩
    · simp [hg, Node.deletable]
    · simp only [FS.set_absent_of_absent g p hg]
  refine ⟨fun h => ⟨habs fs log h, habs fs _ h⟩, ?_, ?_⟩
  · intro h
    unfold delete_subvolume_if_exists
    simp only [bind_apply, effect, get_fs, is_killed_none env _ hk, Bool.false_eq_true, if_false]
    rcases h with h | h <;>
      simp [btrfs_util_delete_subvolume, h, exists_path, throw_error]
  · intro s hs hb
    have h1 : (fs.set p Node.absent) p = Node.absent := by simp [FS.set_apply]
    refine ⟨?_, h1, habs _ _ h1⟩
    rw [delete_ok_iff]
    exact ⟨is_killed_none env _ hk, by simp [hs, Node.deletable, hb], rfl⟩

/-- C6 (amended) on a fresh pair: nothing at `head.new`, and the destination
root as a subvolume that is removed by the first call. -/
theorem C6_delete_idempotent_witness :
    (ex_env 0).kill_after = none ∧
    ex_fresh (ex_dst / "head.new") = Node.absent ∧
    (delete_subvolume_if_exists (ex_dst / "head.new") (ex_env 0) ⟨ex_fresh, []⟩ =
        Res.ok () ⟨ex_fresh, [] ++ [Op.delete_subvolume (ex_dst / "head.new")]⟩ ∧
      delete_subvolume_if_exists (ex_dst / "head.new") (ex_env 0)
          ⟨ex_fresh, [] ++ [Op.delete_subvolume (ex_dst / "head.new")]⟩ =
        Res.ok () ⟨ex_fresh, [] ++ [Op.delete_subvolume (ex_dst / "head.new")] ++
          [Op.delete_subvolume (ex_dst / "head.new")]⟩) :=
  ⟨rfl, by decide,
   (C6_delete_idempotent (ex_env 0) ex_fresh [] (ex_dst / "head.new") rfl).1 (by decide)⟩

/-- C7: after every run that returns 0, in full or in incremental mode, both
heads are subvolumes, the received uuid of the destination head is the uuid of
the source head, and the mode selection on the resulting file system gives the
incremental backup. -/
theorem C7_heads_match_after_success (env : Env) (fs : FS) (src dst : Path) (w1 : World)
    (h : main [src, dst] env fs = (Exit.returned 0, w1)) :
    ∃ s d, w1.fs (src / ".snapshots" / "head") = Node.subvol s ∧
      w1.fs (dst / "head") = Node.subvol d ∧ d.received_uuid = s.uuid ∧
      incremental_backup_possible w1.fs src dst = true := by
  have key : dst ≠ src / ".snapshots" →
      (w1.fs (src / ".snapshots" / "head") = Node.subvol (snapshot_subvol env) ∧
       w1.fs (dst / "head") = Node.subvol (received_subvol env env.snap.uuid true)) →
      ∃ s d, w1.fs (src / ".snapshots" / "head") = Node.subvol s ∧
        w1.fs (dst / "head") = Node.subvol d ∧ d.received_uuid = s.uuid ∧
        incremental_backup_possible w1.fs src dst = true := by
    intro _ hh
    have hu : (received_subvol env env.snap.uuid true).received_uuid = (snapshot_subvol env).uuid := by
      simp [received_subvol, snapshot_subvol]
    exact ⟨_, _, hh.1, hh.2, hu, mode_of_heads _ _ _ _ _ hh.1 hh.2 hu⟩
  obtain ⟨-, -, ⟨-, hrun⟩ | ⟨-, hrun⟩⟩ := main_ok src dst env fs w1 h
  · obtain ⟨s, -, hr, rfl⟩ := incremental_ok src dst env _ w1 hrun
    have hne := hr.2.2.2.2.2.2.2.2.1
    apply key hne
    constructor
    · simp only [incremental_result, if_true]
    · simp only [incremental_result, path_div_inj, hne, false_and, if_false, if_true]
  · obtain ⟨hne, rfl⟩ := full_ok src dst env _ w1 hrun
    apply key hne
    constructor
    · simp only [full_result, if_true]
    · simp only [full_result, path_div_inj, hne, false_and, if_false, if_true]

/-- C7 for a fresh destination and a source without snapshots, which runs in
full mode. -/
theorem C7_heads_match_after_success_witness :
    incremental_backup_possible ex_fresh ex_src ex_dst = false ∧
    main [ex_src, ex_dst] (ex_env 0) ex_fresh =
      (Exit.returned 0, (main [ex_src, ex_dst] (ex_env 0) ex_fresh).2) ∧
    ∃ s d, (main [ex_src, ex_dst] (ex_env 0) ex_fresh).2.fs (ex_src / ".snapshots" / "head") =
        Node.subvol s ∧
      (main [ex_src, ex_dst] (ex_env 0) ex_fresh).2.fs (ex_dst / "head") = Node.subvol d ∧
      d.received_uuid = s.uuid ∧
      incremental_backup_possible (main [ex_src, ex_dst] (ex_env 0) ex_fresh).2.fs ex_src ex_dst =
        true :=
  ⟨by decide, Prod.ext (by decide) rfl,
   C7_heads_match_after_success (ex_env 0) ex_fresh ex_src ex_dst _ (Prod.ext (by decide) rfl)⟩

theorem retired_slot_of_subvol (env : Env) (fs : FS) (dir : Path) (s : Subvol)
    (h : fs (dir / "head") = Node.subvol s) :
    retired_slot env fs dir = some (dir / slot_name env s) := by
  unfold retired_slot
  rw [h]

theorem retired_slot_of_not_subvol (env : Env) (fs : FS) (dir : Path)
    (h : ∀ s, fs (dir / "head") ≠ Node.subvol s) :
    retired_slot env fs dir = none := by
  unfold retired_slot
  split
  · next s hs => exact absurd hs (h s)
  · rfl

theorem mem_DOWSTR_ne (name : String) (h : name ∈ DOWSTR) :
    name ≠ "head" ∧ name ≠ "head.new" ∧ name ≠ ".snapshots" := by
  simp only [DOWSTR, List.mem_cons, List.mem_singleton, List.not_mem_nil, or_false] at h
  rcases h with rfl | rfl | rfl | rfl | rfl | rfl | rfl <;> decide

/-- C10: when the full backup is selected and the run returns 0: a source head
that is a subvolume is in the weekday slot of its own creation time on the
source, a destination head that is a subvolume is in the weekday slot of its
own creation time on the destination; on a side whose head is not a subvolume
every weekday slot is as it was; and the external calls are, in this order, for
each side with a subvolume head the delete of the slot and the rename of the
head into it (source first), then the flush, the directory creation, the
read-only snapshot at the source head, the flush and the transfer. -/
theorem C10_full_retirement (env : Env) (fs : FS) (src dst : Path) (w1 : World)
    (hmode : incremental_backup_possible fs src dst = false)
    (h : main [src, dst] env fs = (Exit.returned 0, w1)) :
    (∀ s, fs (src / ".snapshots" / "head") = Node.subvol s →
      w1.fs (src / ".snapshots" / DOWSTR.getD (localtime_wday env.tz s.otime) "") =
        Node.subvol s) ∧
    (∀ d, fs (dst / "head") = Node.subvol d →
      w1.fs (dst / DOWSTR.getD (localtime_wday env.tz d.otime) "") = Node.subvol d) ∧
    ((∀ s, fs (src / ".snapshots" / "head") ≠ Node.subvol s) →
      ∀ name ∈ DOWSTR, w1.fs (src / ".snapshots" / name) = fs (src / ".snapshots" / name)) ∧
    ((∀ d, fs (dst / "head") ≠ Node.subvol d) →
      ∀ name ∈ DOWSTR, w1.fs (dst / name) = fs (dst / name)) ∧
    w1.log =
      (match fs (src / ".snapshots" / "head") with
        | Node.subvol s =>
          [Op.delete_subvolume (src / ".snapshots" / DOWSTR.getD (localtime_wday env.tz s.otime) ""),
           Op.rename (src / ".snapshots" / "head")
             (src / ".snapshots" / DOWSTR.getD (localtime_wday env.tz s.otime) "")]
        | _ => []) ++
      (match fs (dst / "head") with
        | Node.subvol d =>
          [Op.delete_subvolume (dst / DOWSTR.getD (localtime_wday env.tz d.otime) ""),
           Op.rename (dst / "head") (dst / DOWSTR.getD (localtime_wday env.tz d.otime) "")]
        | _ => []) ++
      [Op.sync, Op.create_directory (src / ".snapshots"),
       Op.create_snapshot src (src / ".snapshots" / "head"), Op.sync,
       Op.system none (src / ".snapshots" / "head") dst] := by
  obtain ⟨-, -, ⟨hm, -⟩ | ⟨-, hrun⟩⟩ := main_ok src dst env fs w1 h
  · rw [hm] at hmode
    exact absurd hmode (by decide)
  obtain ⟨hne, rfl⟩ := full_ok src dst env _ w1 hrun
  have hne2 : ¬ (src / ".snapshots" = dst) := fun h => hne h.symm
  simp only []
  refine ⟨?_, ?_, ?_, ?_, ?_⟩
  · intro s hs
    obtain ⟨hw1, -, -⟩ := DOWSTR_getD_ne (localtime_wday env.tz s.otime)
    have hr := retired_slot_of_subvol env fs (src / ".snapshots") s hs
    unfold slot_name at hr
    simp only [full_result, path_div_inj, hw1, hne2, and_false, false_and, if_false, hr, if_true]
    exact hs
  · intro d hd
    obtain ⟨hw1, -, -⟩ := DOWSTR_getD_ne (localtime_wday env.tz d.otime)
    have hr := retired_slot_of_subvol env fs dst d hd
    unfold slot_name at hr
    have hns : retired_slot env fs (src / ".snapshots") ≠
        some (dst / DOWSTR.getD (localtime_wday env.tz d.otime) "") := by
      intro hc
      obtain ⟨s, -, h3⟩ := retired_slot_eq_some _ _ _ _ hc
      exact hne ((path_div_inj _ _ _ _).1 h3).1
    simp only [full_result, path_div_inj, hw1, hne, and_false, false_and, if_false, hr, hns,
      if_true]
    exact hd
  · intro hs name hname
    obtain ⟨hn1, -, -⟩ := mem_DOWSTR_ne name hname
    have hr := retired_slot_of_not_subvol env fs (src / ".snapshots") hs
    have hnd : retired_slot env fs dst ≠ some (src / ".snapshots" / name) := by
      intro hc
      obtain ⟨s, -, h3⟩ := retired_slot_eq_some _ _ _ _ hc
      exact hne2 ((path_div_inj _ _ _ _).1 h3).1
    simp only [full_result, path_div_inj, hn1, hne2, and_false, false_and, if_false, hr, hnd,
      path_div_ne_self, reduceCtorEq]
  · intro hd name hname
    obtain ⟨hn1, -, hn3⟩ := mem_DOWSTR_ne name hname
    have hr := retired_slot_of_not_subvol env fs dst hd
    have hns : retired_slot env fs (src / ".snapshots") ≠ some (dst / name) := by
      intro hc
      obtain ⟨s, -, h3⟩ := retired_slot_eq_some _ _ _ _ hc
      exact hne ((path_div_inj _ _ _ _).1 h3).1
    simp only [full_result, path_div_inj, hn1, hn3, hne, and_false, false_and, if_false, hr, hns,
      reduceCtorEq]
  · simp only [full_ops, retire_ops, slot_name, List.nil_append]

/-- C10 on the day after a first full run whose destination head was replaced
by an unrelated subvolume: the full backup is selected and both old heads are
retired into `Thu`. -/
theorem C10_full_retirement_witness :
    incremental_backup_possible
      (ex_after_full.set (ex_dst / "head") (Node.subvol (ex_root 7 7))) ex_src ex_dst = false ∧
    main [ex_src, ex_dst] (ex_env 1)
        (ex_after_full.set (ex_dst / "head") (Node.subvol (ex_root 7 7))) =
      (Exit.returned 0,
        (main [ex_src, ex_dst] (ex_env 1)
          (ex_after_full.set (ex_dst / "head") (Node.subvol (ex_root 7 7)))).2) ∧
    (main [ex_src, ex_dst] (ex_env 1)
        (ex_after_full.set (ex_dst / "head") (Node.subvol (ex_root 7 7)))).2.fs
      (ex_dst / "Thu") = Node.subvol (ex_root 7 7) :=
  ⟨by decide, Prod.ext (by decide) rfl,
   (C10_full_retirement (ex_env 1) (ex_after_full.set (ex_dst / "head") (Node.subvol (ex_root 7 7)))
      ex_src ex_dst _ (by decide) (Prod.ext (by decide) rfl)).2.1 (ex_root 7 7) (by decide)⟩

theorem system_snd_apply (env : Env) (g : FS) (parent : Option Path) (snapshot dst p : Path) :
    (system env g parent snapshot dst).2 p = g p ∨
      (p = dst / filename snapshot ∧ g p = Node.absent) := by
  unfold system
  cases hn : g snapshot with
  | subvol s =>
    by_cases ht : transfer_possible g parent snapshot dst = true
    · have hfree : g (dst / filename snapshot) = Node.absent := by
        simp only [transfer_possible, Bool.and_eq_true, Bool.not_eq_true',
          exists_path_eq_false] at ht
        exact ht.2
      by_cases hp : p = dst / filename snapshot
      · right; exact ⟨hp, hp ▸ hfree⟩
      · left
        simp only [ht, if_true]
        split
        · simp [FS.set_apply, hp]
        · split
          · simp [FS.set_apply, hp]
          · rfl
    · left
      simp [ht]
  | _ => left; rfl

theorem system_snd_of_ne (env : Env) (g : FS) (parent : Option Path) (snapshot dst p : Path)
    (h : g p ≠ Node.absent ∨ p ≠ dst / filename snapshot) :
    (system env g parent snapshot dst).2 p = g p := by
  rcases system_snd_apply env g parent snapshot dst p with h1 | ⟨h1, h2⟩
  · exact h1
  · rcases h with h | h
    · exact absurd h2 h
    · exact absurd h1 h

theorem main_of_try_block_fail (src dst : Path) (env : Env) (fs : FS) (e : Err) (w1 : World)
    (h : try_block src dst env ⟨fs, []⟩ = Res.fail e w1) (he : e ≠ Err.killed) :
    main [src, dst] env fs = (Exit.returned 1, w1) := by
  show catch_runtime_error (try_block src dst env ⟨fs, []⟩) = _
  rw [h]
  cases e with
  | killed => exact absurd rfl he
  | _ => rfl

/-- The part of `perform_incremental_backup` after the check of the transfer
status never throws "Error in btrfs command". -/
theorem promote_never_btrfs_command (env : Env) (src dst : Path) (C : World → Prop) :
    triple env (fun _ => True)
      (to_DOW (src / ".snapshots" / "head") >>= fun n =>
        delete_subvolume_if_exists (src / ".snapshots" / DOWSTR.getD n "") >>= fun _ =>
        delete_subvolume_if_exists (dst / DOWSTR.getD n "") >>= fun _ =>
        sync >>= fun _ =>
        rename (src / ".snapshots" / "head") (src / ".snapshots" / DOWSTR.getD n "") >>= fun _ =>
        rename (dst / "head") (dst / DOWSTR.getD n "") >>= fun _ =>
        rename (src / ".snapshots" / "head.new") (src / ".snapshots" / "head") >>= fun _ =>
        rename (dst / "head.new") (dst / "head"))
      (fun _ _ => True) (fun e w => e = Err.btrfs_command → C w) := by
  have hv : ∀ (e : Err), e ≠ Err.btrfs_command →
      ∀ w : World, True → (fun e w => e = Err.btrfs_command → C w) e w :=
    fun e he w _ h => absurd h he
  have ht : ∀ w : World, True → True := fun _ _ => trivial
  refine triple_bind env _ _ _ (fun _ _ => True) _ _
    (triple_to_DOW env _ _ _ _ (hv _ (by simp)) (fun _ _ _ _ => trivial)) (fun n => ?_)
  refine triple_bind env _ _ _ (fun _ _ => True) _ _
    (triple_delete env _ _ _ _ (hv _ (by simp)) (fun w hw => hv _ (by simp) _ hw)
      (fun _ _ _ => trivial)) (fun _ => ?_)
  refine triple_bind env _ _ _ (fun _ _ => True) _ _
    (triple_delete env _ _ _ _ (hv _ (by simp)) (fun w hw => hv _ (by simp) _ hw)
      (fun _ _ _ => trivial)) (fun _ => ?_)
  refine triple_bind env _ _ _ (fun _ _ => True) _ _
    (triple_sync env _ _ _ (hv _ (by simp)) (fun _ _ => trivial)) (fun _ => ?_)
  refine triple_bind env _ _ _ (fun _ _ => True) _ _
    (triple_rename env _ _ _ _ _ (hv _ (by simp)) (fun w hw => hv _ (by simp) _ hw)
      (fun _ _ => trivial)) (fun _ => ?_)
  refine triple_bind env _ _ _ (fun _ _ => True) _ _
    (triple_rename env _ _ _ _ _ (hv _ (by simp)) (fun w hw => hv _ (by simp) _ hw)
      (fun _ _ => trivial)) (fun _ => ?_)
  refine triple_bind env _ _ _ (fun _ _ => True) _ _
    (triple_rename env _ _ _ _ _ (hv _ (by simp)) (fun w hw => hv _ (by simp) _ hw)
      (fun _ _ => trivial)) (fun _ => ?_)
  exact triple_rename env _ _ _ _ _ (hv _ (by simp)) (fun w hw => hv _ (by simp) _ hw)
      (fun _ _ => trivial)

/-- C3: when the incremental backup is selected and the run ends by throwing
"Error in btrfs command" (the transfer command ended abnormally or with a
nonzero exit status), `main` returns 1, the external calls made are exactly
the two deletes of `head.new`, the snapshot, the flush and the transfer, the
staged snapshot is at the source `head.new`, both heads are the subvolumes they
were and every weekday slot on both sides is as it was. -/
theorem C3_transfer_failure (env : Env) (fs : FS) (src dst : Path) (w1 : World)
    (hmode : incremental_backup_possible fs src dst = true)
    (h : try_block src dst env ⟨fs, []⟩ = Res.fail Err.btrfs_command w1) :
    main [src, dst] env fs = (Exit.returned 1, w1) ∧
    w1.log = [Op.delete_subvolume (dst / "head.new"),
      Op.delete_subvolume (src / ".snapshots" / "head.new"),
      Op.create_snapshot src (src / ".snapshots" / "head.new"),
      Op.sync,
      Op.system (some (src / ".snapshots" / "head")) (src / ".snapshots" / "head.new") dst] ∧
    w1.fs (src / ".snapshots" / "head.new") = Node.subvol (snapshot_subvol env) ∧
    w1.fs (src / ".snapshots" / "head") = fs (src / ".snapshots" / "head") ∧
    w1.fs (dst / "head") = fs (dst / "head") ∧
    ∀ name ∈ DOWSTR,
      w1.fs (src / ".snapshots" / name) = fs (src / ".snapshots" / name) ∧
      w1.fs (dst / name) = fs (dst / name) := by
  refine ⟨main_of_try_block_fail src dst env fs _ w1 h (by simp), ?_⟩
  have hS : ∀ g : FS,
      unchanged_except [dst / "head.new", src / ".snapshots" / "head.new"] fs g →
      g (src / ".snapshots" / "head") = fs (src / ".snapshots" / "head") ∧
      g (dst / "head") = fs (dst / "head") ∧
      ∀ name ∈ DOWSTR,
        g (src / ".snapshots" / name) = fs (src / ".snapshots" / name) ∧
        g (dst / name) = fs (dst / name) := by
    intro g hg
    refine ⟨hg _ (by simp [path_div_inj]), hg _ (by simp [path_div_inj]), ?_⟩
    intro name hname
    obtain ⟨hn1, hn2, -⟩ := mem_DOWSTR_ne name hname
    exact ⟨hg _ (by simp [path_div_inj, hn2]), hg _ (by simp [path_div_inj, hn2])⟩
  rw [try_block_apply] at h
  by_cases hs : btrfs_util_is_subvolume fs src = true
  swap
  · simp [hs] at h
  by_cases hd : btrfs_util_is_subvolume fs dst = true
  swap
  · simp [hs, hd] at h
  simp only [hs, hd, hmode, if_true] at h
  have key : triple env (fun w => w = ⟨fs, []⟩) (perform_incremental_backup src dst)
      (fun _ _ => True)
      (fun e w => e = Err.btrfs_command →
        w.log = [Op.delete_subvolume (dst / "head.new"),
          Op.delete_subvolume (src / ".snapshots" / "head.new"),
          Op.create_snapshot src (src / ".snapshots" / "head.new"),
          Op.sync,
          Op.system (some (src / ".snapshots" / "head")) (src / ".snapshots" / "head.new") dst] ∧
        w.fs (src / ".snapshots" / "head.new") = Node.subvol (snapshot_subvol env) ∧
        unchanged_except [dst / "head.new", src / ".snapshots" / "head.new"] fs w.fs) := by
    unfold perform_incremental_backup
    refine triple_bind env _ _ _
      (fun _ w => w.log = [Op.delete_subvolume (dst / "head.new")] ∧
        unchanged_except [dst / "head.new", src / ".snapshots" / "head.new"] fs w.fs) _ _
      (triple_delete env _ _ _ _ (fun _ _ he => by simp at he) (fun _ _ he => by simp at he) ?_)
      (fun _ => ?_)
    · rintro w rfl -
      refine ⟨rfl, ?_⟩
      intro p hp
      simp only [List.mem_cons, List.mem_singleton, List.not_mem_nil, or_false, not_or] at hp
      simp [FS.set_apply, hp.1]
    refine triple_bind env _ _ _
      (fun _ w => w.log = [Op.delete_subvolume (dst / "head.new"),
          Op.delete_subvolume (src / ".snapshots" / "head.new")] ∧
        unchanged_except [dst / "head.new", src / ".snapshots" / "head.new"] fs w.fs) _ _
      (triple_delete env _ _ _ _ (fun _ _ he => by simp at he) (fun _ _ he => by simp at he) ?_)
      (fun _ => ?_)
    · rintro w ⟨hl, hu⟩ -
      refine ⟨by simp [hl], ?_⟩
      intro p hp
      have := hu p hp
      simp only [List.mem_cons, List.mem_singleton, List.not_mem_nil, or_false, not_or] at hp
      simp [FS.set_apply, hp.2, this]
    refine triple_bind env _ _ _
      (fun _ w => w.log = [Op.delete_subvolume (dst / "head.new"),
          Op.delete_subvolume (src / ".snapshots" / "head.new"),
          Op.create_snapshot src (src / ".snapshots" / "head.new")] ∧
        w.fs (src / ".snapshots" / "head.new") = Node.subvol (snapshot_subvol env) ∧
        unchanged_except [dst / "head.new", src / ".snapshots" / "head.new"] fs w.fs) _ _
      (triple_snapshot env _ _ _ _ _ (fun _ _ he => by simp at he)
        (fun _ _ he => by simp at he) ?_)
      (fun _ => ?_)
    · rintro w ⟨hl, hu⟩ -
      refine ⟨by simp [hl], by simp [FS.set_apply], ?_⟩
      intro p hp
      have := hu p hp
      simp only [List.mem_cons, List.mem_singleton, List.not_mem_nil, or_false, not_or] at hp
      simp [FS.set_apply, hp.2, this]
    refine triple_bind env _ _ _
      (fun _ w => w.log = [Op.delete_subvolume (dst / "head.new"),
          Op.delete_subvolume (src / ".snapshots" / "head.new"),
          Op.create_snapshot src (src / ".snapshots" / "head.new"), Op.sync] ∧
        w.fs (src / ".snapshots" / "head.new") = Node.subvol (snapshot_subvol env) ∧
        unchanged_except [dst / "head.new", src / ".snapshots" / "head.new"] fs w.fs) _ _
      (triple_sync env _ _ _ (fun _ _ he => by simp at he) ?_)
      (fun _ => ?_)
    · rintro w ⟨hl, hsn, hu⟩
      exact ⟨by simp [hl], hsn, hu⟩
    refine triple_bind env _ _ _
      (fun _ w => w.log = [Op.delete_subvolume (dst / "head.new"),
          Op.delete_subvolume (src / ".snapshots" / "head.new"),
          Op.create_snapshot src (src / ".snapshots" / "head.new"), Op.sync,
          Op.system (some (src / ".snapshots" / "head")) (src / ".snapshots" / "head.new") dst] ∧
        w.fs (src / ".snapshots" / "head.new") = Node.subvol (snapshot_subvol env) ∧
        unchanged_except [dst / "head.new", src / ".snapshots" / "head.new"] fs w.fs) _ _
      (triple_system_call env _ _ _ _ _ _ (fun _ _ he => by simp at he) ?_)
      (fun rst => ?_)
    · rintro w ⟨hl, hsn, hu⟩
      refine ⟨by simp [hl], ?_, ?_⟩
      · show (system env w.fs _ _ dst).2 _ = _
        rw [system_snd_of_ne _ _ _ _ _ _ (Or.inl (by rw [hsn]; simp))]
        exact hsn
      · intro p hp
        have := hu p hp
        simp only [List.mem_cons, List.mem_singleton, List.not_mem_nil, or_false, not_or] at hp
        show (system env w.fs _ _ dst).2 p = _
        rw [system_snd_of_ne _ _ _ _ _ _ (Or.inr (by rw [filename_div]; exact hp.1))]
        exact this
    refine triple_ite env _ _ _ _ _ _ (fun _ => ?_) (fun _ => ?_)
    · rw [throw_bind]
      exact triple_throw env _ _ _ _ (fun w hw _ => hw)
    · rw [pure_bind_M]
      intro w _
      exact promote_never_btrfs_command env src dst _ w trivial
  have h2 := key ⟨fs, []⟩ rfl
  rw [h] at h2
  obtain ⟨hl, hsn, hu⟩ := h2 rfl
  exact ⟨hl, hsn, hS _ hu⟩

/-- C3 on the day after a first full run, with a transfer that ends with exit
status 1. -/
theorem C3_transfer_failure_witness :
    incremental_backup_possible ex_after_full ex_src ex_dst = true ∧
    WIFEXITED ex_env_failing.rst = true ∧ WEXITSTATUS ex_env_failing.rst = 1 ∧
    try_block ex_src ex_dst ex_env_failing ⟨ex_after_full, []⟩ =
      Res.fail Err.btrfs_command
        (try_block ex_src ex_dst ex_env_failing ⟨ex_after_full, []⟩).world ∧
    main [ex_src, ex_dst] ex_env_failing ex_after_full =
      (Exit.returned 1, (try_block ex_src ex_dst ex_env_failing ⟨ex_after_full, []⟩).world) ∧
    (try_block ex_src ex_dst ex_env_failing ⟨ex_after_full, []⟩).world.fs
        (ex_src / ".snapshots" / "head.new") = Node.subvol (snapshot_subvol ex_env_failing) :=
  ⟨by decide, by decide, by decide, rfl,
   (C3_transfer_failure ex_env_failing ex_after_full ex_src ex_dst _ (by decide) rfl).1,
   (C3_transfer_failure ex_env_failing ex_after_full ex_src ex_dst _ (by decide) rfl).2.2.1⟩

/-- The part of `perform_incremental_backup` after the snapshot keeps every
property of the world that survives an external call. -/
theorem after_snapshot_preserves (env : Env) (src dst : Path) (I : World → Prop)
    (hI : ∀ w g op, I w → I ⟨g, w.log ++ [op]⟩) :
    triple env I
      (sync >>= fun _ =>
        system_call (some (src / ".snapshots" / "head")) (src / ".snapshots" / "head.new") dst
          >>= fun rst =>
        if (!WIFEXITED rst || WEXITSTATUS rst != 0) = true then
          throw_error Err.btrfs_command >>= fun (_ : PUnit) =>
            to_DOW (src / ".snapshots" / "head") >>= fun n =>
            delete_subvolume_if_exists (src / ".snapshots" / DOWSTR.getD n "") >>= fun _ =>
            delete_subvolume_if_exists (dst / DOWSTR.getD n "") >>= fun _ =>
            sync >>= fun _ =>
            rename (src / ".snapshots" / "head") (src / ".snapshots" / DOWSTR.getD n "")
              >>= fun _ =>
            rename (dst / "head") (dst / DOWSTR.getD n "") >>= fun _ =>
            rename (src / ".snapshots" / "head.new") (src / ".snapshots" / "head") >>= fun _ =>
            rename (dst / "head.new") (dst / "head")
        else
          pure PUnit.unit >>= fun (_ : PUnit) =>
            to_DOW (src / ".snapshots" / "head") >>= fun n =>
            delete_subvolume_if_exists (src / ".snapshots" / DOWSTR.getD n "") >>= fun _ =>
            delete_subvolume_if_exists (dst / DOWSTR.getD n "") >>= fun _ =>
            sync >>= fun _ =>
            rename (src / ".snapshots" / "head") (src / ".snapshots" / DOWSTR.getD n "")
              >>= fun _ =>
            rename (dst / "head") (dst / DOWSTR.getD n "") >>= fun _ =>
            rename (src / ".snapshots" / "head.new") (src / ".snapshots" / "head") >>= fun _ =>
            rename (dst / "head.new") (dst / "head"))
      (fun _ w => I w) (fun _ w => I w) := by
  have hk : ∀ w, I w → I w := fun _ h => h
  have ha : ∀ (op : Op) (w : World), I w → I ⟨w.fs, w.log ++ [op]⟩ := fun op w h => hI w _ op h
  refine triple_bind env _ _ _ (fun _ w => I w) _ _
    (triple_sync env _ _ _ hk (fun w h => hI w _ _ h)) (fun _ => ?_)
  refine triple_bind env _ _ _ (fun _ w => I w) _ _
    (triple_system_call env _ _ _ _ _ _ hk (fun w h => hI w _ _ h)) (fun rst => ?_)
  refine triple_ite env _ _ _ _ _ _ (fun _ => ?_) (fun _ => ?_)
  · rw [throw_bind]
    exact triple_throw env _ _ _ _ hk
  rw [pure_bind_M]
  refine triple_bind env _ _ _ (fun _ w => I w) _ _
    (triple_to_DOW env _ _ _ _ hk (fun w _ h _ => h)) (fun n => ?_)
  refine triple_bind env _ _ _ (fun _ w => I w) _ _
    (triple_delete env _ _ _ _ hk (ha _) (fun w h _ => hI w _ _ h)) (fun _ => ?_)
  refine triple_bind env _ _ _ (fun _ w => I w) _ _
    (triple_delete env _ _ _ _ hk (ha _) (fun w h _ => hI w _ _ h)) (fun _ => ?_)
  refine triple_bind env _ _ _ (fun _ w => I w) _ _
    (triple_sync env _ _ _ hk (fun w h => hI w _ _ h)) (fun _ => ?_)
  refine triple_bind env _ _ _ (fun _ w => I w) _ _
    (triple_rename env _ _ _ _ _ hk (ha _) (fun w h => hI w _ _ h)) (fun _ => ?_)
  refine triple_bind env _ _ _ (fun _ w => I w) _ _
    (triple_rename env _ _ _ _ _ hk (ha _) (fun w h => hI w _ _ h)) (fun _ => ?_)
  refine triple_bind env _ _ _ (fun _ w => I w) _ _
    (triple_rename env _ _ _ _ _ hk (ha _) (fun w h => hI w _ _ h)) (fun _ => ?_)
  exact triple_rename env _ _ _ _ _ hk (ha _) (fun w h => hI w _ _ h)

/-- In every incremental run, also one that fails or is killed, the snapshot
call comes after the two deletes of `head.new`. -/
theorem incremental_deletes_first (env : Env) (fs : FS) (src dst : Path) :
    (perform_incremental_backup src dst env ⟨fs, []⟩).world.log = [] ∨
    (perform_incremental_backup src dst env ⟨fs, []⟩).world.log =
      [Op.delete_subvolume (dst / "head.new")] ∨
    (perform_incremental_backup src dst env ⟨fs, []⟩).world.log =
      [Op.delete_subvolume (dst / "head.new"),
       Op.delete_subvolume (src / ".snapshots" / "head.new")] ∨
    ∃ rest, (perform_incremental_backup src dst env ⟨fs, []⟩).world.log =
      Op.delete_subvolume (dst / "head.new") ::
      Op.delete_subvolume (src / ".snapshots" / "head.new") ::
      Op.create_snapshot src (src / ".snapshots" / "head.new") :: rest := by
  have key : triple env (fun w => w.log = []) (perform_incremental_backup src dst)
      (fun _ w => ∃ rest, w.log =
        Op.delete_subvolume (dst / "head.new") ::
        Op.delete_subvolume (src / ".snapshots" / "head.new") ::
        Op.create_snapshot src (src / ".snapshots" / "head.new") :: rest)
      (fun _ w => w.log = [] ∨ w.log = [Op.delete_subvolume (dst / "head.new")] ∨
        w.log = [Op.delete_subvolume (dst / "head.new"),
          Op.delete_subvolume (src / ".snapshots" / "head.new")] ∨
        ∃ rest, w.log =
          Op.delete_subvolume (dst / "head.new") ::
          Op.delete_subvolume (src / ".snapshots" / "head.new") ::
          Op.create_snapshot src (src / ".snapshots" / "head.new") :: rest) := by
    unfold perform_incremental_backup
    refine triple_bind env _ _ _
      (fun _ w => w.log = [Op.delete_subvolume (dst / "head.new")]) _ _
      (triple_delete env _ _ _ _ (fun w h => Or.inl h)
        (fun w h => Or.inr (Or.inl (by simp [h]))) (fun w h _ => by simp [h]))
      (fun _ => ?_)
    refine triple_bind env _ _ _
      (fun _ w => w.log = [Op.delete_subvolume (dst / "head.new"),
        Op.delete_subvolume (src / ".snapshots" / "head.new")]) _ _
      (triple_delete env _ _ _ _ (fun w h => Or.inr (Or.inl h))
        (fun w h => Or.inr (Or.inr (Or.inl (by simp [h])))) (fun w h _ => by simp [h]))
      (fun _ => ?_)
    refine triple_bind env _ _ _
      (fun _ w => ∃ rest, w.log =
        Op.delete_subvolume (dst / "head.new") ::
        Op.delete_subvolume (src / ".snapshots" / "head.new") ::
        Op.create_snapshot src (src / ".snapshots" / "head.new") :: rest) _ _
      (triple_snapshot env _ _ _ _ _ (fun w h => Or.inr (Or.inr (Or.inl h)))
        (fun w h => Or.inr (Or.inr (Or.inr ⟨[], by simp [h]⟩)))
        (fun w h _ => ⟨[], by simp [h]⟩))
      (fun _ => ?_)
    have := after_snapshot_preserves env src dst
      (fun w => ∃ rest, w.log =
        Op.delete_subvolume (dst / "head.new") ::
        Op.delete_subvolume (src / ".snapshots" / "head.new") ::
        Op.create_snapshot src (src / ".snapshots" / "head.new") :: rest)
      (by rintro w g op ⟨rest, h⟩; exact ⟨rest ++ [op], by simp [h]⟩)
    intro w hw
    have h2 := this w hw
    revert h2
    cases (sync >>= fun _ =>
        system_call (some (src / ".snapshots" / "head")) (src / ".snapshots" / "head.new") dst
          >>= fun rst =>
        if (!WIFEXITED rst || WEXITSTATUS rst != 0) = true then
          throw_error Err.btrfs_command >>= fun (_ : PUnit) =>
            to_DOW (src / ".snapshots" / "head") >>= fun n =>
            delete_subvolume_if_exists (src / ".snapshots" / DOWSTR.getD n "") >>= fun _ =>
            delete_subvolume_if_exists (dst / DOWSTR.getD n "") >>= fun _ =>
            sync >>= fun _ =>
            rename (src / ".snapshots" / "head") (src / ".snapshots" / DOWSTR.getD n "")
              >>= fun _ =>
            rename (dst / "head") (dst / DOWSTR.getD n "") >>= fun _ =>
            rename (src / ".snapshots" / "head.new") (src / ".snapshots" / "head") >>= fun _ =>
            rename (dst / "head.new") (dst / "head")
        else
          pure PUnit.unit >>= fun (_ : PUnit) =>
            to_DOW (src / ".snapshots" / "head") >>= fun n =>
            delete_subvolume_if_exists (src / ".snapshots" / DOWSTR.getD n "") >>= fun _ =>
            delete_subvolume_if_exists (dst / DOWSTR.getD n "") >>= fun _ =>
            sync >>= fun _ =>
            rename (src / ".snapshots" / "head") (src / ".snapshots" / DOWSTR.getD n "")
              >>= fun _ =>
            rename (dst / "head") (dst / DOWSTR.getD n "") >>= fun _ =>
            rename (src / ".snapshots" / "head.new") (src / ".snapshots" / "head") >>= fun _ =>
            rename (dst / "head.new") (dst / "head")) env w with
    | ok a w1 => exact fun h => h
    | fail e w1 => exact fun h => Or.inr (Or.inr (Or.inr h))
  have h2 := key ⟨fs, []⟩ rfl
  revert h2
  cases perform_incremental_backup src dst env ⟨fs, []⟩ with
  | ok a w1 => exact fun h => Or.inr (Or.inr (Or.inr h))
  | fail e w1 => exact fun h => h

theorem main_world (src dst : Path) (env : Env) (fs : FS) :
    (main [src, dst] env fs).2 = (try_block src dst env ⟨fs, []⟩).world := by
  show (catch_runtime_error (try_block src dst env ⟨fs, []⟩)).2 = _
  cases try_block src dst env ⟨fs, []⟩ with
  | ok a w => rfl
  | fail e w => cases e <;> rfl

theorem main_eq_of_exit (src dst : Path) (env : Env) (fs : FS) (e : Exit)
    (h : (main [src, dst] env fs).1 = e) :
    main [src, dst] env fs = (e, (main [src, dst] env fs).2) :=
  Prod.ext h rfl

/-- C9, as the specification states it, fails in full mode: an incremental run
killed between the renames of `head` and the renames of `head.new` leaves no
head and a subvolume at `head.new` on both sides; the next run selects the
full backup, returns 0, never deletes `head.new`, and both subvolumes are still
at `head.new` when it ends. -/
theorem C9_head_new_cleanup_counterexample :
    (main [ex_src, ex_dst] ex_env_killed ex_after_full).1 = Exit.killed ∧
    btrfs_util_is_subvolume ex_interrupted (ex_src / ".snapshots" / "head") = false ∧
    btrfs_util_is_subvolume ex_interrupted (ex_src / ".snapshots" / "head.new") = true ∧
    btrfs_util_is_subvolume ex_interrupted (ex_dst / "head.new") = true ∧
    incremental_backup_possible ex_interrupted ex_src ex_dst = false ∧
    (main [ex_src, ex_dst] (ex_env 2) ex_interrupted).1 = Exit.returned 0 ∧
    btrfs_util_is_subvolume (main [ex_src, ex_dst] (ex_env 2) ex_interrupted).2.fs
      (ex_src / ".snapshots" / "head.new") = true ∧
    btrfs_util_is_subvolume (main [ex_src, ex_dst] (ex_env 2) ex_interrupted).2.fs
      (ex_dst / "head.new") = true ∧
    (main [ex_src, ex_dst] (ex_env 2) ex_interrupted).2.log =
      [Op.sync, Op.create_directory (ex_src / ".snapshots"),
       Op.create_snapshot ex_src (ex_src / ".snapshots" / "head"), Op.sync,
       Op.system none (ex_src / ".snapshots" / "head") ex_dst] := by
  refine ⟨by decide, by decide, by decide, by decide, by decide, by decide, by decide,
    by decide, by decide⟩

/-- C9, amended: in incremental mode a run issues the snapshot call only after
the two deletes of `head.new` (destination, then source) have returned, and a
run that returns 0 ends with nothing at `head.new` on either side; in full
mode `head.new` is not touched: a run that returns 0 has deleted neither
`head.new` and leaves at both what it found there. -/
theorem C9_head_new_cleanup (env : Env) (fs : FS) (src dst : Path) :
    (incremental_backup_possible fs src dst = true →
      (Op.create_snapshot src (src / ".snapshots" / "head.new") ∈
          (main [src, dst] env fs).2.log →
        ∃ rest, (main [src, dst] env fs).2.log =
          Op.delete_subvolume (dst / "head.new") ::
          Op.delete_subvolume (src / ".snapshots" / "head.new") ::
          Op.create_snapshot src (src / ".snapshots" / "head.new") :: rest) ∧
      ((main [src, dst] env fs).1 = Exit.returned 0 →
        (main [src, dst] env fs).2.fs (src / ".snapshots" / "head.new") = Node.absent ∧
        (main [src, dst] env fs).2.fs (dst / "head.new") = Node.absent)) ∧
    (incremental_backup_possible fs src dst = false →
      (main [src, dst] env fs).1 = Exit.returned 0 →
        (main [src, dst] env fs).2.fs (src / ".snapshots" / "head.new") =
          fs (src / ".snapshots" / "head.new") ∧
        (main [src, dst] env fs).2.fs (dst / "head.new") = fs (dst / "head.new") ∧
        Op.delete_subvolume (src / ".snapshots" / "head.new") ∉ (main [src, dst] env fs).2.log ∧
        Op.delete_subvolume (dst / "head.new") ∉ (main [src, dst] env fs).2.log) := by
  refine ⟨fun hmode => ⟨?_, ?_⟩, ?_⟩
  · intro hin
    rw [main_world, try_block_apply] at hin ⊢
    by_cases hs : btrfs_util_is_subvolume fs src = true
    swap
    · simp [hs, Res.world] at hin
    by_cases hd : btrfs_util_is_subvolume fs dst = true
    swap
    · simp [hs, hd, Res.world] at hin
    simp only [hs, hd, hmode, if_true] at hin ⊢
    rcases incremental_deletes_first env fs src dst with h | h | h | h
    · rw [h] at hin; simp at hin
    · rw [h] at hin; simp at hin
    · rw [h] at hin; simp at hin
    · exact h
  · intro hexit
    have h := main_eq_of_exit src dst env fs _ hexit
    obtain ⟨-, -, ⟨-, hrun⟩ | ⟨hm, -⟩⟩ := main_ok src dst env fs _ h
    · obtain ⟨s, -, hr, hw⟩ := incremental_ok src dst env _ _ hrun
      have hne := hr.2.2.2.2.2.2.2.2.1
      have hne2 : ¬ (src / ".snapshots" = dst) := fun h => hne h.symm
      obtain ⟨hw1, hw2, -⟩ := DOWSTR_getD_ne (localtime_wday env.tz s.otime)
      rw [hw]
      simp only [slot_name]
      generalize DOWSTR.getD (localtime_wday env.tz s.otime) "" = dow at *
      constructor
      · simp [incremental_result, path_div_inj, Ne.symm hw2, hne2]
      · simp [incremental_result, path_div_inj, Ne.symm hw2, hne]
    · rw [hm] at hmode
      exact absurd hmode (by decide)
  · intro hmode hexit
    have h := main_eq_of_exit src dst env fs _ hexit
    obtain ⟨-, -, ⟨hm, -⟩ | ⟨-, hrun⟩⟩ := main_ok src dst env fs _ h
    · rw [hm] at hmode
      exact absurd hmode (by decide)
    · obtain ⟨hne, hw⟩ := full_ok src dst env _ _ hrun
      have hne2 : ¬ (src / ".snapshots" = dst) := fun h => hne h.symm
      have hns : ∀ (dir p : Path), filename p = "head.new" →
          retired_slot env fs dir ≠ some p := by
        intro dir p hp hc
        obtain ⟨s, -, rfl⟩ := retired_slot_eq_some _ _ _ _ hc
        rw [filename_div] at hp
        exact (DOWSTR_getD_ne _).2.1 hp
      have hro : ∀ (dir : Path) (op : Op), op ∈ retire_ops env fs dir →
          ∀ p, filename p = "head.new" → op ≠ Op.delete_subvolume p := by
        intro dir op hop p hp
        unfold retire_ops at hop
        split at hop
        · simp only [List.mem_cons, List.mem_singleton, List.not_mem_nil, or_false] at hop
          rcases hop with rfl | rfl
          · intro hc
            injection hc with hc
            rw [← hc, filename_div] at hp
            exact (DOWSTR_getD_ne _).2.1 hp
          · simp
        · simp at hop
      rw [hw]
      simp only []
      refine ⟨?_, ?_, ?_, ?_⟩
      · simp only [full_result, path_div_inj, hne2, and_false, false_and, if_false,
          hns _ _ (filename_div _ _), Ne.symm (path_div_ne_self _ _), reduceCtorEq,
          String.reduceEq]
      · simp only [full_result, path_div_inj, hne, and_false, false_and, if_false,
          hns _ _ (filename_div _ _), reduceCtorEq, String.reduceEq]
      · intro hc
        simp only [List.nil_append, full_ops, List.mem_append, List.mem_cons,
          List.mem_singleton, List.not_mem_nil, or_false, reduceCtorEq] at hc
        rcases hc with hc | hc
        · exact hro _ _ hc _ (filename_div _ _) rfl
        · exact hro _ _ hc _ (filename_div _ _) rfl
      · intro hc
        simp only [List.nil_append, full_ops, List.mem_append, List.mem_cons,
          List.mem_singleton, List.not_mem_nil, or_false, reduceCtorEq] at hc
        rcases hc with hc | hc
        · exact hro _ _ hc _ (filename_div _ _) rfl
        · exact hro _ _ hc _ (filename_div _ _) rfl

theorem system_snd_cases (env : Env) (g : FS) (parent : Option Path) (snapshot dst p : Path) :
    (system env g parent snapshot dst).2 p = g p ∨
      (p = dst / filename snapshot ∧ ((system env g parent snapshot dst).2 p).deletable = true) := by
  unfold system
  cases hn : g snapshot with
  | subvol s =>
    by_cases ht : transfer_possible g parent snapshot dst = true
    · by_cases hp : p = dst / filename snapshot
      · right
        refine ⟨hp, ?_⟩
        simp only [ht, if_true]
        split
        · simp [FS.set_apply, hp, Node.deletable, received_subvol]
        · split
          · simp [FS.set_apply, hp, Node.deletable, received_subvol]
          · simp only [transfer_possible, Bool.and_eq_true, Bool.not_eq_true',
              exists_path_eq_false] at ht
            show (g p).deletable = true
            rw [hp, ht.2]
            rfl
      · left
        simp only [ht, if_true]
        split
        · simp [FS.set_apply, hp]
        · split
          · simp [FS.set_apply, hp]
          · rfl
    · left
      simp [ht]
  | _ => left; rfl

theorem slot_name_ne (env : Env) (s : Subvol) :
    slot_name env s ≠ "head" ∧ slot_name env s ≠ "head.new" ∧ slot_name env s ≠ ".snapshots" :=
  DOWSTR_getD_ne _

theorem slot_name_mem (env : Env) (s : Subvol) : slot_name env s ∈ DOWSTR := by
  unfold slot_name
  have h := localtime_wday_lt env.tz s.otime
  generalize localtime_wday env.tz s.otime = n at h
  rcases n with _|_|_|_|_|_|_|n
  all_goals first | (exfalso; omega) | simp [DOWSTR]

theorem crash_state_refl (fs : FS) (src dst : Path) (dow : String) :
    crash_state fs src dst dow fs := fun _ => Or.inl rfl

theorem crash_state_set (fs g : FS) (src dst : Path) (dow : String) (q : Path) (n : Node)
    (hg : crash_state fs src dst dow g)
    (hq : q = dst / "head.new" ∨ q = src / ".snapshots" / "head.new" ∨
      q = src / ".snapshots" / dow ∨ q = dst / dow)
    (hn : n.deletable = true) :
    crash_state fs src dst dow (g.set q n) := by
  intro p
  by_cases hp : p = q
  · right
    subst hp
    exact ⟨hq, by simp [FS.set_apply, hn]⟩
  · simp only [FS.set_apply, hp, if_false]
    exact hg p

theorem crash_state_system (env : Env) (fs g : FS) (src dst : Path) (dow : String)
    (parent : Option Path) (hg : crash_state fs src dst dow g) :
    crash_state fs src dst dow
      (system env g parent (src / ".snapshots" / "head.new") dst).2 := by
  intro p
  rcases system_snd_cases env g parent (src / ".snapshots" / "head.new") dst p with h | ⟨h1, h2⟩
  · rw [h]; exact hg p
  · right
    rw [filename_div] at h1
    exact ⟨Or.inl h1, h2⟩

theorem crash_state_apply (fs g : FS) (src dst : Path) (dow : String) (p : Path)
    (hg : crash_state fs src dst dow g)
    (h1 : p ≠ dst / "head.new") (h2 : p ≠ src / ".snapshots" / "head.new")
    (h3 : p ≠ src / ".snapshots" / dow) (h4 : p ≠ dst / dow) : g p = fs p := by
  rcases hg p with h | ⟨h | h | h | h, -⟩
  · exact h
  · exact absurd h h1
  · exact absurd h h2
  · exact absurd h h3
  · exact absurd h h4

theorem crash_state_deletable (fs g : FS) (src dst : Path) (dow : String) (p : Path)
    (hg : crash_state fs src dst dow g) (h : (fs p).deletable = true) :
    (g p).deletable = true := by
  rcases hg p with h1 | ⟨-, h1⟩
  · rw [h1]; exact h
  · exact h1

theorem renamed_append (log : List Op) (op : Op) (h : renamed log) : renamed (log ++ [op]) := by
  obtain ⟨a, b, hab⟩ := h
  exact ⟨a, b, List.mem_append_left _ hab⟩

/-- Whatever way an incremental run ends, either it has issued a rename or the
file system is a crash state of the one it started from. -/
theorem incremental_crash_state (env : Env) (fs : FS) (src dst : Path) (s : Subvol)
    (hs : fs (src / ".snapshots" / "head") = Node.subvol s) :
    renamed (perform_incremental_backup src dst env ⟨fs, []⟩).world.log ∨
    crash_state fs src dst (slot_name env s)
      (perform_incremental_backup src dst env ⟨fs, []⟩).world.fs := by
  have hset : ∀ (g : FS) (q : Path) (n : Node),
      crash_state fs src dst (slot_name env s) g →
      (q = dst / "head.new" ∨ q = src / ".snapshots" / "head.new" ∨
        q = src / ".snapshots" / slot_name env s ∨ q = dst / slot_name env s) →
      n.deletable = true → crash_state fs src dst (slot_name env s) (g.set q n) :=
    fun g q n => crash_state_set fs g src dst _ q n
  have key : triple env (fun w => crash_state fs src dst (slot_name env s) w.fs)
      (perform_incremental_backup src dst)
      (fun _ w => renamed w.log ∨ crash_state fs src dst (slot_name env s) w.fs)
      (fun _ w => renamed w.log ∨ crash_state fs src dst (slot_name env s) w.fs) := by
    unfold perform_incremental_backup
    refine triple_bind env _ _ _
      (fun _ w => crash_state fs src dst (slot_name env s) w.fs) _ _
      (triple_delete env _ _ _ _ (fun w h => Or.inr h) (fun w h => Or.inr h)
        (fun w h _ => hset _ _ _ h (Or.inl rfl) rfl))
      (fun _ => ?_)
    refine triple_bind env _ _ _
      (fun _ w => crash_state fs src dst (slot_name env s) w.fs) _ _
      (triple_delete env _ _ _ _ (fun w h => Or.inr h) (fun w h => Or.inr h)
        (fun w h _ => hset _ _ _ h (Or.inr (Or.inl rfl)) rfl))
      (fun _ => ?_)
    refine triple_bind env _ _ _
      (fun _ w => crash_state fs src dst (slot_name env s) w.fs) _ _
      (triple_snapshot env _ _ _ _ _ (fun w h => Or.inr h) (fun w h => Or.inr h)
        (fun w h _ => hset _ _ _ h (Or.inr (Or.inl rfl)) rfl))
      (fun _ => ?_)
    refine triple_bind env _ _ _
      (fun _ w => crash_state fs src dst (slot_name env s) w.fs) _ _
      (triple_sync env _ _ _ (fun w h => Or.inr h) (fun w h => h))
      (fun _ => ?_)
    refine triple_bind env _ _ _
      (fun _ w => crash_state fs src dst (slot_name env s) w.fs) _ _
      (triple_system_call env _ _ _ _ _ _ (fun w h => Or.inr h)
        (fun w h => crash_state_system env fs _ src dst _ _ h))
      (fun rst => ?_)
    refine triple_ite env _ _ _ _ _ _ (fun _ => ?_) (fun _ => ?_)
    · rw [throw_bind]
      exact triple_throw env _ _ _ _ (fun w h => Or.inr h)
    rw [pure_bind_M]
    refine triple_bind env _ _ _
      (fun n w => crash_state fs src dst (slot_name env s) w.fs ∧
        DOWSTR.getD n "" = slot_name env s) _ _
      (triple_to_DOW env _ _ _ _ (fun w h => Or.inr h) ?_)
      (fun n => ?_)
    · intro w s1 h hs1
      refine ⟨h, ?_⟩
      have := crash_state_apply fs w.fs src dst _ (src / ".snapshots" / "head") h
        (by simp [path_div_inj]) (by simp [path_div_inj])
        (by simp [path_div_inj, (slot_name_ne env s).1.symm])
        (by simp [path_div_inj, (slot_name_ne env s).1.symm])
      rw [hs1, hs] at this
      injection this with this
      rw [this]
      rfl
    refine triple_bind env _ _ _
      (fun _ w => crash_state fs src dst (slot_name env s) w.fs ∧
        DOWSTR.getD n "" = slot_name env s) _ _
      (triple_delete env _ _ _ _ (fun w h => Or.inr h.1) (fun w h => Or.inr h.1)
        (fun w h _ => ⟨hset _ _ _ h.1 (Or.inr (Or.inr (Or.inl (by rw [h.2])))) rfl, h.2⟩))
      (fun _ => ?_)
    refine triple_bind env _ _ _
      (fun _ w => crash_state fs src dst (slot_name env s) w.fs) _ _
      (triple_delete env _ _ _ _ (fun w h => Or.inr h.1) (fun w h => Or.inr h.1)
        (fun w h _ => hset _ _ _ h.1 (Or.inr (Or.inr (Or.inr (by rw [h.2])))) rfl))
      (fun _ => ?_)
    refine triple_bind env _ _ _
      (fun _ w => crash_state fs src dst (slot_name env s) w.fs) _ _
      (triple_sync env _ _ _ (fun w h => Or.inr h) (fun w h => h))
      (fun _ => ?_)
    refine triple_bind env _ _ _ (fun _ w => renamed w.log) _ _
      (triple_rename env _ _ _ _ _ (fun w h => Or.inr h)
        (fun w _ => Or.inl ⟨_, _, List.mem_append_right _ (List.mem_singleton.2 rfl)⟩)
        (fun w _ => ⟨_, _, List.mem_append_right _ (List.mem_singleton.2 rfl)⟩))
      (fun _ => ?_)
    refine triple_bind env _ _ _ (fun _ w => renamed w.log) _ _
      (triple_rename env _ _ _ _ _ (fun w h => Or.inl h)
        (fun w h => Or.inl (renamed_append _ _ h)) (fun w h => renamed_append _ _ h))
      (fun _ => ?_)
    refine triple_bind env _ _ _ (fun _ w => renamed w.log) _ _
      (triple_rename env _ _ _ _ _ (fun w h => Or.inl h)
        (fun w h => Or.inl (renamed_append _ _ h)) (fun w h => renamed_append _ _ h))
      (fun _ => ?_)
    exact triple_rename env _ _ _ _ _ (fun w h => Or.inl h)
        (fun w h => Or.inl (renamed_append _ _ h)) (fun w h => Or.inl (renamed_append _ _ h))
  have h2 := key ⟨fs, []⟩ (crash_state_refl fs src dst _)
  revert h2
  cases perform_incremental_backup src dst env ⟨fs, []⟩ with
  | ok a w1 => exact fun h => h
  | fail e w1 => exact fun h => h

theorem main_of_try_block_ok (src dst : Path) (env : Env) (fs : FS) (w1 : World)
    (h : try_block src dst env ⟨fs, []⟩ = Res.ok () w1) :
    main [src, dst] env fs = (Exit.returned 0, w1) := by
  show catch_runtime_error (try_block src dst env ⟨fs, []⟩) = _
  rw [h]
  rfl

theorem incremental_result_src_slot (env : Env) (fs : FS) (src dst : Path) (dow name : String)
    (hne : dst ≠ src / ".snapshots") (hn : name ∈ DOWSTR) :
    incremental_result env fs src dst dow (src / ".snapshots" / name) =
      if name = dow then fs (src / ".snapshots" / "head") else fs (src / ".snapshots" / name) := by
  have hne2 : ¬ (src / ".snapshots" = dst) := fun h => hne h.symm
  obtain ⟨h1, h2, -⟩ := mem_DOWSTR_ne name hn
  simp only [incremental_result, path_div_inj, h1, h2, hne2, and_false, false_and, if_false,
    true_and]

theorem incremental_result_dst_slot (env : Env) (fs : FS) (src dst : Path) (dow name : String)
    (hne : dst ≠ src / ".snapshots") (hn : name ∈ DOWSTR) :
    incremental_result env fs src dst dow (dst / name) =
      if name = dow then fs (dst / "head") else fs (dst / name) := by
  obtain ⟨h1, h2, -⟩ := mem_DOWSTR_ne name hn
  simp only [incremental_result, path_div_inj, h1, h2, hne, and_false, false_and, if_false,
    true_and]

/-- C8: let an incremental run from `fs` end, in any way, before its first
rename (`head` is still in place on both sides), and let the time zone be the
same in all runs.  Then the tool selects the incremental backup again on the
state left behind; if the run from `fs` would have completed and the roots are
not entries of each other's snapshot directories, the re-run completes as soon
as it is not killed and its snapshot and transfer succeed; and a re-run that
completes leaves the old heads in the one slot named by the creation weekday
of the old source head, every other weekday slot as it was before the crash,
so that all weekday slots on both sides are those of the uninterrupted run. -/
theorem C8_crash_resume (env1 env2 env3 : Env) (fs : FS) (src dst : Path) (w3 : World)
    (hmode : incremental_backup_possible fs src dst = true)
    (hcrash : ¬ renamed (main [src, dst] env1 fs).2.log)
    (htz12 : env1.tz = env2.tz) (htz23 : env2.tz = env3.tz)
    (h3 : main [src, dst] env3 fs = (Exit.returned 0, w3)) :
    incremental_backup_possible (main [src, dst] env1 fs).2.fs src dst = true ∧
    (env2.kill_after = none → env2.snap_ok = true →
      (WIFEXITED env2.rst && WEXITSTATUS env2.rst == 0) = true →
      (∀ name : String, src ≠ dst / name) →
      (∀ name : String, dst ≠ src / ".snapshots" / name) →
      (main [src, dst] env2 (main [src, dst] env1 fs).2.fs).1 = Exit.returned 0) ∧
    ((main [src, dst] env2 (main [src, dst] env1 fs).2.fs).1 = Exit.returned 0 →
      ∃ s d, fs (src / ".snapshots" / "head") = Node.subvol s ∧
        fs (dst / "head") = Node.subvol d ∧
        (main [src, dst] env2 (main [src, dst] env1 fs).2.fs).2.fs
          (src / ".snapshots" / DOWSTR.getD (localtime_wday env2.tz s.otime) "") = Node.subvol s ∧
        (main [src, dst] env2 (main [src, dst] env1 fs).2.fs).2.fs
          (dst / DOWSTR.getD (localtime_wday env2.tz s.otime) "") = Node.subvol d ∧
        (∀ name ∈ DOWSTR, name ≠ DOWSTR.getD (localtime_wday env2.tz s.otime) "" →
          (main [src, dst] env2 (main [src, dst] env1 fs).2.fs).2.fs (src / ".snapshots" / name) =
            fs (src / ".snapshots" / name) ∧
          (main [src, dst] env2 (main [src, dst] env1 fs).2.fs).2.fs (dst / name) =
            fs (dst / name)) ∧
        (∀ name ∈ DOWSTR,
          (main [src, dst] env2 (main [src, dst] env1 fs).2.fs).2.fs (src / ".snapshots" / name) =
            w3.fs (src / ".snapshots" / name) ∧
          (main [src, dst] env2 (main [src, dst] env1 fs).2.fs).2.fs (dst / name) =
            w3.fs (dst / name))) := by
  obtain ⟨hsrc, hdst, ⟨-, hrun3⟩ | ⟨hm, -⟩⟩ := main_ok src dst env3 fs w3 h3
  swap
  · rw [hm] at hmode
    exact absurd hmode (by decide)
  obtain ⟨s, -, hr3, hw3⟩ := incremental_ok src dst env3 _ w3 hrun3
  simp only [] at hr3 hw3
  obtain ⟨hs0, hro, hd1, hd2, -, hsrc2, hsn, hdir, hne, hdh, hd3, hd4, -, -⟩ := hr3
  have hne2 : ¬ (src / ".snapshots" = dst) := fun h => hne h.symm
  obtain ⟨s', d, hs', hd0, hstr⟩ := mode_heads fs src dst hmode
  have hss : s' = s := by
    rw [hs0] at hs'
    injection hs' with hs'
    exact hs'.symm
  subst hss
  have huuid : d.received_uuid = s'.uuid := (to_string_inj _ _ hstr).symm
  have hW12 : slot_name env1 s' = slot_name env2 s' := by unfold slot_name; rw [htz12]
  have hW23 : slot_name env2 s' = slot_name env3 s' := by unfold slot_name; rw [htz23]
  obtain ⟨hw1, hw2, hw3'⟩ := slot_name_ne env2 s'
  have hWmem := slot_name_mem env2 s'
  -- the state the first run leaves is a crash state of `fs`
  have hcs : crash_state fs src dst (slot_name env2 s') (main [src, dst] env1 fs).2.fs := by
    have := incremental_crash_state env1 fs src dst s' hs0
    rw [main_world, try_block_apply] at hcrash ⊢
    simp only [hsrc, hdst, hmode, if_true] at hcrash ⊢
    rcases this with h | h
    · exact absurd h hcrash
    · rw [← hW12]; exact h
  generalize (main [src, dst] env1 fs).2.fs = g at hcs ⊢
  have hgs : g (src / ".snapshots" / "head") = Node.subvol s' := by
    rw [crash_state_apply fs g src dst _ _ hcs (by simp [path_div_inj])
      (by simp [path_div_inj]) (by simp [path_div_inj, hw1.symm])
      (by simp [path_div_inj, hw1.symm])]
    exact hs0
  have hgd : g (dst / "head") = Node.subvol d := by
    rw [crash_state_apply fs g src dst _ _ hcs (by simp [path_div_inj])
      (by simp [path_div_inj]) (by simp [path_div_inj, hw1.symm])
      (by simp [path_div_inj, hw1.symm])]
    exact hd0
  have hgmode : incremental_backup_possible g src dst = true :=
    mode_of_heads g src dst s' d hgs hgd huuid
  refine ⟨hgmode, ?_, ?_⟩
  · intro hk hsnap hrst hsep1 hsep2
    have hgsrc : g src = fs src :=
      crash_state_apply fs g src dst _ _ hcs (hsep1 _) (Ne.symm (path_div_div_ne_self _ _ _))
        (Ne.symm (path_div_div_ne_self _ _ _)) (hsep1 _)
    have hgdst : g dst = fs dst :=
      crash_state_apply fs g src dst _ _ hcs (Ne.symm (path_div_ne_self _ _)) (hsep2 _)
        (hsep2 _) (Ne.symm (path_div_ne_self _ _))
    have hgsn : g (src / ".snapshots") = fs (src / ".snapshots") :=
      crash_state_apply fs g src dst _ _ hcs (by simp [path_div_inj])
        (Ne.symm (path_div_ne_self _ _)) (Ne.symm (path_div_ne_self _ _))
        (by simp [path_div_inj, hw3'.symm])
    have hready : incremental_ready env2 g src dst s' := by
      refine ⟨hgs, hro, crash_state_deletable fs g src dst _ _ hcs hd1,
        crash_state_deletable fs g src dst _ _ hcs hd2, ?_, hsrc2, ?_, ?_, hne, ?_, ?_, ?_,
        hsnap, hrst⟩
      · unfold btrfs_util_is_subvolume at hsrc ⊢
        rw [hgsrc]; exact hsrc
      · rw [hgsn]; exact hsn
      · right
        rw [hgdst]
        rcases hdir with hdir | hdir
        · exact absurd hdir (hsep2 _)
        · exact hdir
      · rw [hgd]; simp
      · apply crash_state_deletable fs g src dst _ _ hcs
        rw [hW23]; exact hd3
      · apply crash_state_deletable fs g src dst _ _ hcs
        rw [hW23]; exact hd4
    have hrun := incremental_ok_of src dst env2 ⟨g, []⟩ s' (is_killed_none env2 _ hk) hready
    have htry : try_block src dst env2 ⟨g, []⟩ =
        perform_incremental_backup src dst env2 ⟨g, []⟩ := by
      rw [try_block_apply]
      have hsrc' : btrfs_util_is_subvolume g src = true := by
        unfold btrfs_util_is_subvolume at hsrc ⊢
        rw [hgsrc]; exact hsrc
      have hdst' : btrfs_util_is_subvolume g dst = true := by
        unfold btrfs_util_is_subvolume at hdst ⊢
        rw [hgdst]; exact hdst
      simp only [hsrc', hdst', hgmode, if_true]
    rw [hrun] at htry
    rw [main_of_try_block_ok src dst env2 g _ htry]
  · intro hexit
    have h2 := main_eq_of_exit src dst env2 g _ hexit
    obtain ⟨-, -, ⟨-, hrun2⟩ | ⟨hm, -⟩⟩ := main_ok src dst env2 g _ h2
    swap
    · rw [hm] at hgmode
      exact absurd hgmode (by decide)
    obtain ⟨s2, -, hr2, hw2'⟩ := incremental_ok src dst env2 _ _ hrun2
    simp only [] at hr2 hw2'
    have hs2 : s2 = s' := by
      have := hr2.1
      rw [hgs] at this
      injection this with this
      exact this.symm
    subst hs2
    rw [hw2', hw3]
    simp only []
    have hslot : DOWSTR.getD (localtime_wday env2.tz s2.otime) "" = slot_name env2 s2 := rfl
    have hother : ∀ name ∈ DOWSTR, name ≠ slot_name env2 s2 →
        g (src / ".snapshots" / name) = fs (src / ".snapshots" / name) ∧
        g (dst / name) = fs (dst / name) := by
      intro name hname hneq
      obtain ⟨hn1, hn2, -⟩ := mem_DOWSTR_ne name hname
      constructor
      · exact crash_state_apply fs g src dst _ _ hcs (by simp [path_div_inj, hne2])
          (by simp [path_div_inj, hn2]) (by simp [path_div_inj, hneq])
          (by simp [path_div_inj, hne2])
      · exact crash_state_apply fs g src dst _ _ hcs (by simp [path_div_inj, hn2])
          (by simp [path_div_inj, hne]) (by simp [path_div_inj, hne])
          (by simp [path_div_inj, hneq])
    refine ⟨s2, d, hs0, hd0, ?_, ?_, ?_, ?_⟩
    · rw [hslot, incremental_result_src_slot env2 g src dst _ _ hne hWmem, if_pos rfl]
      exact hgs
    · rw [hslot, incremental_result_dst_slot env2 g src dst _ _ hne hWmem, if_pos rfl]
      exact hgd
    · rw [hslot]
      intro name hname hneq
      rw [incremental_result_src_slot env2 g src dst _ _ hne hname, if_neg hneq,
        incremental_result_dst_slot env2 g src dst _ _ hne hname, if_neg hneq]
      exact hother name hname hneq
    · intro name hname
      rw [incremental_result_src_slot env2 g src dst _ _ hne hname,
        incremental_result_dst_slot env2 g src dst _ _ hne hname,
        incremental_result_src_slot env3 fs src dst _ _ hne hname,
        incremental_result_dst_slot env3 fs src dst _ _ hne hname, ← hW23]
      by_cases hc : name = slot_name env2 s2
      · simp only [hc, if_true]
        exact ⟨hgs.trans hs0.symm, hgd.trans hd0.symm⟩
      · simp only [hc, if_false]
        exact hother name hname hc

/-- C8 for a run of day 1 killed after the transfer and the first slot delete,
re-run on day 2. -/
theorem C8_crash_resume_witness :
    incremental_backup_possible ex_after_full ex_src ex_dst = true ∧
    (main [ex_src, ex_dst] ex_env_crash ex_after_full).1 = Exit.killed ∧
    ¬ renamed (main [ex_src, ex_dst] ex_env_crash ex_after_full).2.log ∧
    main [ex_src, ex_dst] (ex_env 1) ex_after_full =
      (Exit.returned 0, (main [ex_src, ex_dst] (ex_env 1) ex_after_full).2) ∧
    incremental_backup_possible (main [ex_src, ex_dst] ex_env_crash ex_after_full).2.fs
      ex_src ex_dst = true ∧
    (main [ex_src, ex_dst] (ex_env 2)
      (main [ex_src, ex_dst] ex_env_crash ex_after_full).2.fs).1 = Exit.returned 0 := by
  have hlog : (main [ex_src, ex_dst] ex_env_crash ex_after_full).2.log =
      [Op.delete_subvolume (ex_dst / "head.new"),
       Op.delete_subvolume (ex_src / ".snapshots" / "head.new"),
       Op.create_snapshot ex_src (ex_src / ".snapshots" / "head.new"),
       Op.sync,
       Op.system (some (ex_src / ".snapshots" / "head")) (ex_src / ".snapshots" / "head.new")
         ex_dst,
       Op.delete_subvolume (ex_src / ".snapshots" / "Thu")] := by decide
  have hcrash : ¬ renamed (main [ex_src, ex_dst] ex_env_crash ex_after_full).2.log := by
    rw [hlog]
    rintro ⟨a, b, h⟩
    simp at h
  have h := C8_crash_resume ex_env_crash (ex_env 2) (ex_env 1) ex_after_full ex_src ex_dst _
    (by decide) hcrash rfl rfl (Prod.ext (by decide) rfl)
  refine ⟨by decide, by decide, hcrash, Prod.ext (by decide) rfl, h.1, ?_⟩
  refine h.2.1 rfl rfl (by decide) ?_ ?_
  · intro name hn
    have h1 : ex_src = (["mnt"] : Path) / "data" := rfl
    rw [h1, path_div_inj] at hn
    exact absurd hn.1 (by decide)
  · intro name hn
    have h1 : ex_dst = (["mnt"] : Path) / "backup" := rfl
    rw [h1, path_div_inj] at hn
    exact absurd hn.1 (by decide)

theorem mem_DOWSTR_iff (name : String) :
    name ∈ DOWSTR ↔ ∃ i, i < 7 ∧ name = DOWSTR.getD i "" := by
  constructor
  · intro h
    simp only [DOWSTR, List.mem_cons, List.mem_singleton, List.not_mem_nil, or_false] at h
    rcases h with rfl | rfl | rfl | rfl | rfl | rfl | rfl
    · exact ⟨0, by decide, rfl⟩
    · exact ⟨1, by decide, rfl⟩
    · exact ⟨2, by decide, rfl⟩
    · exact ⟨3, by decide, rfl⟩
    · exact ⟨4, by decide, rfl⟩
    · exact ⟨5, by decide, rfl⟩
    · exact ⟨6, by decide, rfl⟩
  · rintro ⟨i, hi, rfl⟩
    rcases i with _|_|_|_|_|_|_|i
    all_goals first | (exfalso; omega) | simp [DOWSTR]

theorem getD_mem_DOWSTR (i : Nat) (hi : i < 7) : DOWSTR.getD i "" ∈ DOWSTR :=
  (mem_DOWSTR_iff _).2 ⟨i, hi, rfl⟩

/-- The state after `m + 1` successful runs on consecutive days that started
with no head on either side: the heads are those of the last run and the slot
of the weekday of each of the up to seven runs before it holds what that run
made. -/
theorem retention_invariant (envs : Nat → Env) (fs : FS) (src dst : Path) (N : Nat)
    (tz day0 : Int)
    (hhead : fs (src / ".snapshots" / "head") = Node.absent)
    (hok : ∀ k, k < N → exit_of_run [src, dst] envs fs k = Exit.returned 0)
    (htz : ∀ k, k < N → (envs k).tz = tz)
    (hday : ∀ k, k < N → ((envs k).snap.otime + tz) / 86400 = day0 + k) :
    ∀ m, m < N →
      dst ≠ src / ".snapshots" ∧
      fs_after [src, dst] envs fs (m + 1) (src / ".snapshots" / "head") =
        Node.subvol (snapshot_subvol (envs m)) ∧
      fs_after [src, dst] envs fs (m + 1) (dst / "head") =
        Node.subvol (received_subvol (envs m) (envs m).snap.uuid true) ∧
      ∀ k, k < m → m ≤ k + 7 →
        fs_after [src, dst] envs fs (m + 1)
            (src / ".snapshots" / DOWSTR.getD (localtime_wday tz (envs k).snap.otime) "") =
          Node.subvol (snapshot_subvol (envs k)) ∧
        fs_after [src, dst] envs fs (m + 1)
            (dst / DOWSTR.getD (localtime_wday tz (envs k).snap.otime) "") =
          Node.subvol (received_subvol (envs k) (envs k).snap.uuid true) := by
  have hwd : ∀ k, k < N →
      localtime_wday tz (envs k).snap.otime = ((day0 + k + 4) % 7).toNat := by
    intro k hk
    unfold localtime_wday
    rw [hday k hk]
  intro m
  induction m with
  | zero =>
    intro h0
    have hexit := hok 0 h0
    unfold exit_of_run at hexit
    have hmain := main_eq_of_exit src dst (envs 0) _ _ hexit
    obtain ⟨-, -, ⟨hm, -⟩ | ⟨-, hrun⟩⟩ := main_ok src dst (envs 0) _ _ hmain
    · exfalso
      obtain ⟨s, d, hs, -, -⟩ := mode_heads _ _ _ hm
      simp only [fs_after] at hs
      rw [hhead] at hs
      cases hs
    · obtain ⟨hne, hw⟩ := full_ok src dst (envs 0) _ _ hrun
      have hF : fs_after [src, dst] envs fs (0 + 1) = full_result (envs 0) fs src dst := by
        show (main [src, dst] (envs 0) (fs_after [src, dst] envs fs 0)).2.fs = _
        rw [hw]
        rfl
      rw [hF]
      refine ⟨hne, ?_, ?_, ?_⟩
      · simp only [full_result, if_true]
      · simp only [full_result, path_div_inj, hne, false_and, if_false, if_true]
      · intro k hk
        exact absurd hk (Nat.not_lt_zero _)
  | succ m ih =>
    intro hm1
    obtain ⟨hne, ihs, ihd, ihslots⟩ := ih (by omega)
    have hexit := hok (m + 1) hm1
    unfold exit_of_run at hexit
    have hmain := main_eq_of_exit src dst (envs (m + 1)) _ _ hexit
    have huu : (received_subvol (envs m) (envs m).snap.uuid true).received_uuid =
        (snapshot_subvol (envs m)).uuid := by
      simp [received_subvol, snapshot_subvol]
    have hmode := mode_of_heads _ src dst _ _ ihs ihd huu
    obtain ⟨-, -, ⟨-, hrun⟩ | ⟨hmf, -⟩⟩ := main_ok src dst (envs (m + 1)) _ _ hmain
    swap
    · rw [hmf] at hmode
      exact absurd hmode (by decide)
    obtain ⟨s, -, hr, hw⟩ := incremental_ok src dst (envs (m + 1)) _ _ hrun
    have hs : s = snapshot_subvol (envs m) := by
      have := hr.1
      simp only [] at this
      rw [ihs] at this
      injection this with this
      exact this.symm
    subst hs
    have hslot : slot_name (envs (m + 1)) (snapshot_subvol (envs m)) =
        DOWSTR.getD (localtime_wday tz (envs m).snap.otime) "" := by
      unfold slot_name
      rw [htz (m + 1) hm1]
      rfl
    have hF : fs_after [src, dst] envs fs (m + 1 + 1) =
        incremental_result (envs (m + 1)) (fs_after [src, dst] envs fs (m + 1)) src dst
          (DOWSTR.getD (localtime_wday tz (envs m).snap.otime) "") := by
      show (main [src, dst] (envs (m + 1)) (fs_after [src, dst] envs fs (m + 1))).2.fs = _
      rw [hw, hslot]
    rw [hF]
    refine ⟨hne, ?_, ?_, ?_⟩
    · simp only [incremental_result, if_true]
    · simp only [incremental_result, path_div_inj, hne, false_and, if_false, if_true]
    · intro k hk hk7
      have hmemk := getD_mem_DOWSTR _ (localtime_wday_lt tz (envs k).snap.otime)
      rw [incremental_result_src_slot _ _ src dst _ _ hne hmemk,
        incremental_result_dst_slot _ _ src dst _ _ hne hmemk]
      by_cases hkm : k = m
      · subst hkm
        simp only [if_true]
        exact ⟨ihs, ihd⟩
      · have hne_slot : DOWSTR.getD (localtime_wday tz (envs k).snap.otime) "" ≠
            DOWSTR.getD (localtime_wday tz (envs m).snap.otime) "" := by
          intro hc
          have := DOWSTR_getD_inj _ _ (localtime_wday_lt _ _) (localtime_wday_lt _ _) hc
          rw [hwd k (by omega), hwd m (by omega)] at this
          omega
        simp only [hne_slot, if_false]
        exact ihslots k (by omega) (by omega)

/-- C5, as the specification states it, fails for N = 7: after seven
successful runs on seven consecutive days from a pair without snapshots, the
slot `Wed` is empty on both sides (six weekday slots are occupied, the
snapshot of the seventh day is still `head`). -/
theorem C5_weekday_retention_counterexample :
    (∀ name ∈ "head" :: "head.new" :: DOWSTR,
      ex_fresh (ex_src / ".snapshots" / name) = Node.absent ∧
      ex_fresh (ex_dst / name) = Node.absent) ∧
    (∀ k, k < 7 → exit_of_run [ex_src, ex_dst] ex_env ex_fresh k = Exit.returned 0) ∧
    (∀ k, k < 7 → (ex_env k).tz = 0 ∧ ((ex_env k).snap.otime + 0) / 86400 = 0 + k) ∧
    fs_after [ex_src, ex_dst] ex_env ex_fresh 7 (ex_src / ".snapshots" / "Wed") = Node.absent ∧
    fs_after [ex_src, ex_dst] ex_env ex_fresh 7 (ex_dst / "Wed") = Node.absent ∧
    btrfs_util_is_subvolume (fs_after [ex_src, ex_dst] ex_env ex_fresh 7)
      (ex_src / ".snapshots" / "head") = true := by
  refine ⟨by decide, by decide, by decide, rfl, rfl, by decide⟩

/-- C5, amended: after N successful runs (N ≥ 8) on N consecutive calendar
days, in one time zone, from a pair without snapshots, `head` holds on the
source the snapshot of the last run and on the destination the subvolume
received from it, and each of the seven weekday slots is occupied: the slot of
a weekday holds, on the source, the snapshot made by the run of that weekday
among the seven runs before the last one, and on the destination the
subvolume received from it. -/
theorem C5_weekday_retention (envs : Nat → Env) (fs : FS) (src dst : Path) (N : Nat)
    (tz day0 : Int) (hN : 8 ≤ N)
    (hfresh : ∀ name ∈ "head" :: "head.new" :: DOWSTR,
      fs (src / ".snapshots" / name) = Node.absent ∧ fs (dst / name) = Node.absent)
    (hok : ∀ k, k < N → exit_of_run [src, dst] envs fs k = Exit.returned 0)
    (htz : ∀ k, k < N → (envs k).tz = tz)
    (hday : ∀ k, k < N → ((envs k).snap.otime + tz) / 86400 = day0 + k) :
    fs_after [src, dst] envs fs N (src / ".snapshots" / "head") =
      Node.subvol (snapshot_subvol (envs (N - 1))) ∧
    fs_after [src, dst] envs fs N (dst / "head") =
      Node.subvol (received_subvol (envs (N - 1)) (snapshot_subvol (envs (N - 1))).uuid true) ∧
    ∀ name ∈ DOWSTR, ∃ k, N ≤ k + 8 ∧ k + 1 < N ∧
      name = DOWSTR.getD (localtime_wday tz (envs k).snap.otime) "" ∧
      fs_after [src, dst] envs fs N (src / ".snapshots" / name) =
        Node.subvol (snapshot_subvol (envs k)) ∧
      fs_after [src, dst] envs fs N (dst / name) =
        Node.subvol (received_subvol (envs k) (snapshot_subvol (envs k)).uuid true) := by
  have hhead : fs (src / ".snapshots" / "head") = Node.absent :=
    (hfresh "head" (List.mem_cons_self _ _)).1
  obtain ⟨M, rfl⟩ : ∃ M, N = M + 1 := ⟨N - 1, by omega⟩
  obtain ⟨-, hs, hd, hslots⟩ :=
    retention_invariant envs fs src dst (M + 1) tz day0 hhead hok htz hday M (by omega)
  have hwd : ∀ k, k < M + 1 →
      localtime_wday tz (envs k).snap.otime = ((day0 + k + 4) % 7).toNat := by
    intro k hk
    unfold localtime_wday
    rw [hday k hk]
  refine ⟨hs, hd, ?_⟩
  intro name hname
  obtain ⟨i, hi, rfl⟩ := (mem_DOWSTR_iff name).1 hname
  -- the run of weekday `i` among the seven runs before the last one
  have hex : ∃ k, M ≤ k + 7 ∧ k < M ∧ ((day0 + k + 4) % 7).toNat = i := by
    refine ⟨M - 7 + (((i : Int) - (day0 + (M - 7 : Nat) + 4)) % 7).toNat, ?_, ?_, ?_⟩
    · omega
    · omega
    · omega
  obtain ⟨k, hk1, hk2, hk3⟩ := hex
  have hname : DOWSTR.getD i "" = DOWSTR.getD (localtime_wday tz (envs k).snap.otime) "" := by
    rw [hwd k (by omega), hk3]
  refine ⟨k, by omega, by omega, hname, ?_⟩
  rw [hname]
  exact hslots k hk2 hk1

/-- C5 (amended) for eight runs on the days 0 to 7. -/
theorem C5_weekday_retention_witness :
    (∀ name ∈ "head" :: "head.new" :: DOWSTR,
      ex_fresh (ex_src / ".snapshots" / name) = Node.absent ∧
      ex_fresh (ex_dst / name) = Node.absent) ∧
    (∀ k, k < 8 → exit_of_run [ex_src, ex_dst] ex_env ex_fresh k = Exit.returned 0) ∧
    (∀ k, k < 8 → (ex_env k).tz = 0) ∧
    (∀ k, k < 8 → ((ex_env k).snap.otime + 0) / 86400 = 0 + k) ∧
    fs_after [ex_src, ex_dst] ex_env ex_fresh 8 (ex_src / ".snapshots" / "head") =
      Node.subvol (snapshot_subvol (ex_env (8 - 1))) ∧
    fs_after [ex_src, ex_dst] ex_env ex_fresh 8 (ex_dst / "head") =
      Node.subvol (received_subvol (ex_env (8 - 1)) (snapshot_subvol (ex_env (8 - 1))).uuid true) ∧
    ∀ name ∈ DOWSTR, ∃ k, 8 ≤ k + 8 ∧ k + 1 < 8 ∧
      name = DOWSTR.getD (localtime_wday 0 (ex_env k).snap.otime) "" ∧
      fs_after [ex_src, ex_dst] ex_env ex_fresh 8 (ex_src / ".snapshots" / name) =
        Node.subvol (snapshot_subvol (ex_env k)) ∧
      fs_after [ex_src, ex_dst] ex_env ex_fresh 8 (ex_dst / name) =
        Node.subvol (received_subvol (ex_env k) (snapshot_subvol (ex_env k)).uuid true) :=
  ⟨by decide, by decide, by decide, by decide,
   C5_weekday_retention ex_env ex_fresh ex_src ex_dst 8 0 0 (by decide) (by decide) (by decide)
     (by decide) (by decide)⟩

end BtrfsBackup
